import Mathlib

/-! Bulk insert for gorm: the record-to-SQL pipeline of `bulk_insert.go`.

A shallow embedding of `BulkInsert`, `insertObjSet` and `extractMapValue`.

* Go values of type `interface{}` that are passed as records are modelled by what the
  code observes of them: their `reflect` kind and the fields gorm's `Scope.Fields()` reports.
* A Go `map[string]interface{}` is an association list with distinct keys; assignment
  overwrites the entry of an existing key.
* External collaborators (gorm, the SQL dialect, the database driver, the system clock)
  are parameters, gathered in `Collaborators`.
* Effects are explicit state: the number of clock readings taken so far and the list of
  statements handed to the driver.
-/

namespace GormBulkInsert

/-! ## Data model -/

/-- The kinds of `reflect.Kind`, in Go's order and with Go's names in lower case. -/
inductive Kind
  | invalid | bool | int | int8 | int16 | int32 | int64
  | uint | uint8 | uint16 | uint32 | uint64 | uintptr
  | float32 | float64 | complex64 | complex128
  | array | chan | func | interface | map | ptr | slice | string | struct | unsafePointer
  deriving DecidableEq, Repr

/-- Dynamically typed values (`interface{}`) stored in attribute maps and bound as SQL
parameters. `time t` is a `time.Time` holding the clock reading `t`. -/
inductive Val
  | nil
  | bool (b : Bool)
  | int (i : Int)
  | str (s : String)
  | time (t : Nat)
  deriving DecidableEq, Repr

/-- Go `error` values, identified by their message. -/
abbrev Error := String

/-- A `*gorm.Field` as read by `extractMapValue`.
`Name` is `field.Struct.Name`, `Relationship` is `field.StructField.Relationship`
(`none` for a nil pointer), `TagSettings` is what `field.TagSettingsGet` looks up, and
`Value` is `field.Field.Interface()`. -/
structure Field where
  Name : String
  DBName : String
  Relationship : Option String
  IsIgnored : Bool
  IsPrimaryKey : Bool
  HasDefaultValue : Bool
  IsBlank : Bool
  TagSettings : List (String × String)
  Value : Val
  deriving DecidableEq, Repr

/-- The lookup `field.TagSettingsGet(key)`: the Go pair `(val, ok)` as an option. -/
def Field.TagSettingsGet (field : Field) (key : String) : Option String :=
  field.TagSettings.lookup key

/-- An `interface{}` handed to the engine as a record: `kind` is
`reflect.ValueOf(value).Kind()`, `fields` is `(&gorm.Scope{Value: value}).Fields()`,
and `typeName` stands for the dynamic type (from which gorm derives the table). -/
structure Obj where
  kind : Kind
  typeName : String
  fields : List Field
  deriving DecidableEq, Repr

/-- A Go `map[string]interface{}`: entries with pairwise distinct keys. -/
abbrev Attrs := List (String × Val)

/-- The keys of a map. -/
def Attrs.keys (m : Attrs) : List String := m.map Prod.fst

/-- The assignment `m[key] = v`: overwrites the entry of `key` if there is one, adds an
entry otherwise. -/
def Attrs.set : Attrs → String → Val → Attrs
  | [], key, v => [(key, v)]
  | (k, x) :: rest, key, v =>
    if k = key then (key, v) :: rest else (k, x) :: Attrs.set rest key v

/-- The index expression `m[key]`: the zero value (a nil interface) for a missing key. -/
def Attrs.get (m : Attrs) (key : String) : Val := (m.lookup key).getD Val.nil

/-- The statement handed to the driver by `db.Exec(sql, vars...)`. -/
structure Statement where
  SQL : String
  Vars : List Val
  deriving DecidableEq, Repr

/-- The part of a `*gorm.Scope` the code touches. -/
structure Scope where
  Value : Obj
  SQL : String
  SQLVars : List Val
  deriving DecidableEq, Repr

/-- The external collaborators.
* `Now n` is the reading `time.Now()` returns on its `n`-th call;
* `ToColumnName` is `gorm.ToColumnName`;
* `BindVar n` is the dialect placeholder for the `n`-th bound variable of a scope;
* `QuotedTableName` is `scope.QuotedTableName()` for a scope on the given value;
* `Raw` is the rewriting `scope.Raw` applies to the SQL text it stores;
* `Exec log stmt` is the `Error` of `db.Exec` for `stmt` when the statements of `log`
  were handed to the driver before (`none` is a nil error). -/
structure Collaborators where
  Now : Nat → Nat
  ToColumnName : String → String
  BindVar : Nat → String
  QuotedTableName : Obj → String
  Raw : String → String
  Exec : List Statement → Statement → Option Error

/-- The mutable world: how many clock readings were taken and which statements were
handed to the driver, oldest first. -/
structure World where
  clock : Nat
  sent : List Statement
  deriving DecidableEq, Repr

/-! ## Repository code outside the translated source file -/

/-- Modelled from the spec: the grouping done by `splitObjects`, whose body is not part of
the source file. Groups of `k` consecutive elements in input order, the last one possibly
shorter; `fuel` bounds the number of groups. -/
def chunks {α : Type} (k : Nat) : Nat → List α → List (List α)
  | 0, _ => []
  | _ + 1, [] => []
  | fuel + 1, x :: xs => (x :: xs).take k :: chunks k fuel ((x :: xs).drop k)

/-- Modelled from the spec: `splitObjects`, the Chunker, is called by `BulkInsert` but its
body is not part of the source file. For a positive chunk size it "splits an ordered
sequence of records into fixed-size groups, preserving order, tolerating a final partial
group". For `chunkSize <= 0` the spec leaves the result open ("undefined by the
reference"), so that case is the parameter `nonPositive`. -/
def splitObjects {α : Type} (nonPositive : List α → Int → List (List α))
    (objects : List α) (chunkSize : Int) : List (List α) :=
  if 0 < chunkSize then chunks chunkSize.toNat objects.length objects
  else nonPositive objects chunkSize

/-- Modelled from the spec: the order in which `sortedKeys`, whose body is not part of the
source file, sorts column names. It is the lexicographic order of the characters, that is
the order `≤` of `String`, written on the character lists so that it can be evaluated. -/
def keyLE (a b : String) : Prop := a.toList ≤ b.toList

instance keyLE.decidable : DecidableRel keyLE := fun a b =>
  inferInstanceAs (Decidable (a.toList ≤ b.toList))

/-- Modelled from the spec: `sortedKeys` is called by `insertObjSet` but its body is not
part of the source file. It yields "the sorted list of column names" of an attribute
mapping: every key once, in ascending order. Strings are compared character by
character (`keyLE`), the order of Go's `sort.Strings`. -/
def sortedKeys (val : Attrs) : List String :=
  (Attrs.keys val).insertionSort keyLE

/-! ## gorm -/

/-- The scope `db.NewScope(value)`: no SQL and no variables yet. -/
def NewScope (value : Obj) : Scope := { Value := value, SQL := "", SQLVars := [] }

/-- The method `scope.AddToVars(value)`: appends the value to the scope's variables and
returns the dialect placeholder for its position. Values that are gorm SQL expressions,
which gorm expands in place, are not among the values of `Val`. -/
def AddToVars (c : Collaborators) (scope : Scope) (value : Val) : String × Scope :=
  let scope1 := { scope with SQLVars := scope.SQLVars ++ [value] }
  (c.BindVar scope1.SQLVars.length, scope1)

/-- The call `db.Exec(sql, vars...)`: hands the statement to the driver, returns its
error. -/
def Exec (c : Collaborators) (w : World) (stmt : Statement) : Option Error × World :=
  (c.Exec w.sent stmt, { w with sent := w.sent ++ [stmt] })

/-! ## `extractMapValue` -/

/-- One iteration of the loop over `Fields()` in `extractMapValue`. -/
def extractField (c : Collaborators) (attrs : Attrs) (clock : Nat) (field : Field) :
    Attrs × Nat :=
  if field.Relationship.isNone && !field.IsIgnored && !field.IsPrimaryKey then
    if field.Name == "CreatedAt" || field.Name == "UpdatedAt" then
      (attrs.set field.DBName (Val.time (c.Now clock)), clock + 1)
    else if field.HasDefaultValue && field.IsBlank then
      match field.TagSettingsGet "DEFAULT" with
      | some val => (attrs.set field.DBName (Val.str val), clock)
      | none => (attrs.set field.DBName field.Value, clock)
    else
      (attrs.set field.DBName field.Value, clock)
  else
    (attrs, clock)

/-- The loop over `Fields()` in `extractMapValue`. -/
def extractFields (c : Collaborators) : List Field → Attrs → Nat → Attrs × Nat
  | [], attrs, clock => (attrs, clock)
  | field :: rest, attrs, clock =>
    extractFields c rest (extractField c attrs clock field).1 (extractField c attrs clock field).2

/-- The function `extractMapValue(value)`. The Go result pair `(map, error)` comes with
the clock count after the call; a nil map and a nil error are `none`. -/
def extractMapValue (c : Collaborators) (clock : Nat) (value : Obj) :
    (Option Attrs × Option Error) × Nat :=
  if value.kind != Kind.struct then
    ((none, some "value must be kind of Struct"), clock)
  else
    ((some (extractFields c value.fields [] clock).1, none),
      (extractFields c value.fields [] clock).2)

/-! ## `insertObjSet` -/

/-- The inner loop of `insertObjSet` over `sortedKeys(objAttrs)`: binds `objAttrs[key]`
for each key and collects the placeholders (`vars` is the slice `variables`). -/
def appendVariables (c : Collaborators) (objAttrs : Attrs) :
    List String → List String → Scope → List String × Scope
  | [], vars, scope => (vars, scope)
  | key :: rest, vars, scope =>
    appendVariables c objAttrs rest
      (vars ++ [(AddToVars c scope (objAttrs.get key)).1])
      (AddToVars c scope (objAttrs.get key)).2

/-- The loop of `insertObjSet` over the objects of the group. The state is the clock
count, the placeholder groups collected so far and `mainScope`; the error is what the
loop returns early with. -/
def insertRows (c : Collaborators) (attrSize : Nat) :
    List Obj → Nat → List String → Scope → Option Error × Nat × List String × Scope
  | [], clock, placeholders, mainScope => (none, clock, placeholders, mainScope)
  | obj :: rest, clock, placeholders, mainScope =>
    match extractMapValue c clock obj with
    | ((_, some err), clock1) => (some err, clock1, placeholders, mainScope)
    | ((objAttrs, none), clock1) =>
      if (objAttrs.getD []).length != attrSize then
        (some "attribute sizes are inconsistent", clock1, placeholders, mainScope)
      else
        let scope := NewScope obj
        let bound := appendVariables c (objAttrs.getD []) (sortedKeys (objAttrs.getD [])) [] scope
        let valueQuery := "(" ++ ", ".intercalate bound.1 ++ ")"
        insertRows c attrSize rest clock1 (placeholders ++ [valueQuery])
          { mainScope with SQLVars := mainScope.SQLVars ++ bound.2.SQLVars }

/-- The function `insertObjSet(db, objects)`: the returned error and the world after the
call. -/
def insertObjSet (c : Collaborators) (w : World) (objects : List Obj) :
    Option Error × World :=
  match objects with
  | [] => (none, w)
  | first :: _ =>
    match extractMapValue c w.clock first with
    | ((_, some err), clock1) => (some err, { w with clock := clock1 })
    | ((firstAttrs, none), clock1) =>
      let attrSize := (firstAttrs.getD []).length
      let mainScope := NewScope first
      let dbColumns := (sortedKeys (firstAttrs.getD [])).map c.ToColumnName
      match insertRows c attrSize objects clock1 [] mainScope with
      | (some err, clock2, _, _) => (some err, { w with clock := clock2 })
      | (none, clock2, placeholders, mainScope1) =>
        let mainScope2 := { mainScope1 with
          SQL := c.Raw ("INSERT INTO " ++ c.QuotedTableName first ++ " (" ++
            ", ".intercalate dbColumns ++ ") VALUES " ++ ", ".intercalate placeholders) }
        Exec c { w with clock := clock2 } { SQL := mainScope2.SQL, Vars := mainScope2.SQLVars }

/-! ## `BulkInsert` -/

/-- The loop of `BulkInsert` over the groups: returns at the first error. -/
def insertGroups (c : Collaborators) : World → List (List Obj) → Option Error × World
  | w, [] => (none, w)
  | w, objSet :: rest =>
    match insertObjSet c w objSet with
    | (some err, w1) => (some err, w1)
    | (none, w1) => insertGroups c w1 rest

/-- The function `BulkInsert(db, objects, chunkSize)`. -/
def BulkInsert (nonPositive : List Obj → Int → List (List Obj)) (c : Collaborators)
    (w : World) (objects : List Obj) (chunkSize : Int) : Option Error × World :=
  insertGroups c w (splitObjects nonPositive objects chunkSize)

/-! ## Notions used in the statements -/

/-- A field that `extractMapValue` writes into the mapping: not a relationship, not
ignored, not the primary key. -/
def Field.included (field : Field) : Prop :=
  field.Relationship = none ∧ field.IsIgnored = false ∧ field.IsPrimaryKey = false

instance Field.included.decidable (field : Field) : Decidable field.included :=
  inferInstanceAs (Decidable (_ ∧ _ ∧ _))

/-- A field named `CreatedAt` or `UpdatedAt`. -/
def Field.isTimestamp (field : Field) : Prop :=
  field.Name = "CreatedAt" ∨ field.Name = "UpdatedAt"

instance Field.isTimestamp.decidable (field : Field) : Decidable field.isTimestamp :=
  inferInstanceAs (Decidable (_ ∨ _))

/-- The field with its stored value forgotten when it is named `CreatedAt` or
`UpdatedAt`: two field lists that agree after `forgetTimestamp` differ only in the values
(and hence the blankness) stored in those fields. -/
def forgetTimestamp (field : Field) : Field :=
  if field.isTimestamp then { field with Value := Val.nil, IsBlank := false } else field

/-! ## Sample data -/

/-- Sample collaborators: a clock starting at 1000, identity naming, `?` placeholders, a
driver that accepts every statement. -/
def sampleCollaborators : Collaborators :=
  { Now := fun n => 1000 + n, ToColumnName := id, BindVar := fun _ => "?",
    QuotedTableName := fun o => o.typeName, Raw := id, Exec := fun _ _ => none }

/-- A plain column field. -/
def plainField (name dbName : String) (v : Val) : Field :=
  { Name := name, DBName := dbName, Relationship := none, IsIgnored := false,
    IsPrimaryKey := false, HasDefaultValue := false, IsBlank := false, TagSettings := [],
    Value := v }

/-- A blank field with the declared default `"guest"`. -/
def roleField : Field :=
  { Name := "Role", DBName := "role", Relationship := none, IsIgnored := false,
    IsPrimaryKey := false, HasDefaultValue := true, IsBlank := true,
    TagSettings := [("DEFAULT", "guest")], Value := Val.str "" }

/-- A `CreatedAt` field holding an old reading. -/
def createdAtField : Field := plainField "CreatedAt" "created_at" (Val.time 7)

/-- A sample record: primary key, name, role with a default, creation time, a relationship
and an ignored field. -/
def sampleUser : Obj :=
  { kind := Kind.struct, typeName := "users",
    fields := [
      { plainField "ID" "id" (Val.int 1) with IsPrimaryKey := true },
      plainField "Name" "name" (Val.str "a"),
      roleField,
      createdAtField,
      { plainField "Profile" "profile" Val.nil with Relationship := some "has_one" },
      { plainField "Secret" "secret" (Val.str "x") with IsIgnored := true }] }

/-! ## What `insertObjSet` computes, row by row -/

/-- The mapping `extractMapValue` returns for a record when the clock count is `clock`; a
nil map reads as the empty map. -/
def attrsAt (c : Collaborators) (clock : Nat) (o : Obj) : Attrs :=
  ((extractMapValue c clock o).1.1).getD []

/-- The number of entries of the mapping extracted from a record. It is the same at every
clock count (`length_attrsAt`). -/
def entryCount (c : Collaborators) (o : Obj) : Nat := (attrsAt c 0 o).length

/-- The mappings extracted from the records of a group one after the other, the first of
them when the clock count is `clock`. -/
def rowAttrs (c : Collaborators) : Nat → List Obj → List Attrs
  | _, [] => []
  | clock, o :: rest => attrsAt c clock o :: rowAttrs c (extractMapValue c clock o).2 rest

/-- The clock count after extracting the records of a group one after the other. -/
def clockAfterRows (c : Collaborators) : Nat → List Obj → Nat
  | clock, [] => clock
  | clock, o :: rest => clockAfterRows c (extractMapValue c clock o).2 rest

/-- The values of a mapping in the order of its sorted keys. -/
def rowValues (a : Attrs) : List Val := (sortedKeys a).map (fun key => a.get key)

/-- The placeholders of a fresh scope for `n` bound values. -/
def rowPlaceholders (c : Collaborators) (n : Nat) : List String :=
  (List.range n).map (fun i => c.BindVar (i + 1))

/-- A record that passes the two checks of the loop of `insertObjSet` for the expected
size `attrSize`: it is a struct and its mapping has `attrSize` entries. -/
def passes (c : Collaborators) (attrSize : Nat) (o : Obj) : Prop :=
  o.kind = Kind.struct ∧ entryCount c o = attrSize

instance passes.decidable (c : Collaborators) (attrSize : Nat) (o : Obj) :
    Decidable (passes c attrSize o) :=
  inferInstanceAs (Decidable (_ ∧ _))

/-- The error the loop of `insertObjSet` returns at a record that does not pass. -/
def rejection (o : Obj) : Error :=
  if o.kind = Kind.struct then "attribute sizes are inconsistent"
  else "value must be kind of Struct"

/-- The text of a value tuple for a row of `n` values. -/
def valueQuery (c : Collaborators) (n : Nat) : String :=
  "(" ++ ", ".intercalate (rowPlaceholders c n) ++ ")"

/-- The statement `insertObjSet` hands to the driver for a group with first record `first`
when the first extraction happens at clock count `clock`: the columns are those of the
first record's mapping, the rows those of the mappings extracted in the loop. -/
def builtStatement (c : Collaborators) (clock : Nat) (first : Obj) (objects : List Obj) :
    Statement :=
  { SQL := c.Raw ("INSERT INTO " ++ c.QuotedTableName first ++ " (" ++
      ", ".intercalate ((sortedKeys (attrsAt c clock first)).map c.ToColumnName) ++
      ") VALUES " ++
      ", ".intercalate ((rowAttrs c (extractMapValue c clock first).2 objects).map
        (fun a => valueQuery c a.length))),
    Vars := ((rowAttrs c (extractMapValue c clock first).2 objects).map rowValues).flatten }

/-- The world after `insertObjSet` ran on each of the groups in turn. -/
def worldAfter (c : Collaborators) : World → List (List Obj) → World
  | w, [] => w
  | w, g :: rest => worldAfter c (insertObjSet c w g).2 rest

/-! ## More sample data -/

/-- The world before anything happened. -/
def freshWorld : World := { clock := 0, sent := [] }

/-- A struct record of type `typeName` with two plain integer columns. -/
def twoColumns (typeName k1 k2 : String) (v1 v2 : Int) : Obj :=
  { kind := Kind.struct, typeName := typeName,
    fields := [plainField k1 k1 (Val.int v1), plainField k2 k2 (Val.int v2)] }

/-- A record with the columns `a = 1` and `b = 2`. -/
def rowAB : Obj := twoColumns "ab" "a" "b" 1 2

/-- A record with the columns `a = 3` and `c = 4`. -/
def rowAC : Obj := twoColumns "ac" "a" "c" 3 4

/-- A record with the columns `b = 3` and `c = 4`. -/
def rowBC : Obj := twoColumns "bc" "b" "c" 3 4

/-- A record with the single column `label`. -/
def sampleTag : Obj :=
  { kind := Kind.struct, typeName := "tags",
    fields := [plainField "Label" "label" (Val.str "x")] }

/-- Sample collaborators whose driver rejects every statement. -/
def failingCollaborators : Collaborators :=
  { sampleCollaborators with Exec := fun _ _ => some "driver: connection lost" }

/-- Sample collaborators whose naming convention puts column names in lower case. -/
def lowerCollaborators : Collaborators :=
  { sampleCollaborators with
    ToColumnName := fun name => String.mk (name.toList.map Char.toLower) }

/-- A record whose columns are named `B` and `a`. -/
def rowUpperB : Obj := twoColumns "t" "B" "a" 1 2

/-- A record with two included fields of the same column name `x`. -/
def sharedColumn : Obj :=
  { kind := Kind.struct, typeName := "t",
    fields := [plainField "First" "x" (Val.int 1), plainField "Second" "x" (Val.int 2)] }

/-- A blank field that gorm flags as having a default value although it has no `DEFAULT`
tag setting (as for an auto-increment column). -/
def counterField : Field :=
  { Name := "Counter", DBName := "counter", Relationship := none, IsIgnored := false,
    IsPrimaryKey := false, HasDefaultValue := true, IsBlank := true,
    TagSettings := [("AUTO_INCREMENT", "AUTO_INCREMENT")], Value := Val.int 0 }

/-- A record with the field `counterField`. -/
def counterRecord : Obj :=
  { kind := Kind.struct, typeName := "counters",
    fields := [plainField "Name" "name" (Val.str "a"), counterField] }

/-- A record in which a later field has the column name of `counterField`. -/
def counterShadowed : Obj :=
  { kind := Kind.struct, typeName := "counters",
    fields := [counterField, plainField "Total" "counter" (Val.int 5)] }

/-- The rewriting of gorm's `Scope.Raw`, which stores
`strings.Replace(sql, "$$$", "?", -1)`: every `$$$` becomes `?`. -/
def replaceBindVars : List Char → List Char
  | [] => []
  | '$' :: '$' :: '$' :: rest => '?' :: replaceBindVars rest
  | ch :: rest => ch :: replaceBindVars rest

/-- Sample collaborators after gorm's common dialect: the placeholder `BindVar` returns is
the marker `$$$`, and `Raw` turns the markers into `?`. -/
def commonDialect : Collaborators :=
  { sampleCollaborators with
    BindVar := fun _ => "$$$",
    Raw := fun sql => String.mk (replaceBindVars sql.toList) }

/-- The function `BulkInsert` when the call of the chunker need not return. The chunker is
a parameter; `none` as its result stands for a chunking loop that never ends, which the
spec names as one possible behaviour for a chunk size that is not positive, and `none` as
the result of `BulkInsert` says that it does not return either. -/
def BulkInsertWith (chunker : List Obj → Int → Option (List (List Obj)))
    (c : Collaborators) (w : World) (objects : List Obj) (chunkSize : Int) :
    Option (Option Error × World) :=
  match chunker objects chunkSize with
  | none => none
  | some groups => some (insertGroups c w groups)

/-! ## Theorems -/

/-! ## Maps -/

theorem Attrs.mem_keys_set (m : Attrs) (key : String) (v : Val) (x : String) :
    x ∈ Attrs.keys (Attrs.set m key v) ↔ x = key ∨ x ∈ Attrs.keys m := by
  induction m with
  | nil => simp [Attrs.set, Attrs.keys]
  | cons e rest ih =>
    obtain ⟨k, y⟩ := e
    by_cases hk : k = key
    · subst hk
      simp [Attrs.set, Attrs.keys]
    · have ih1 : x ∈ List.map Prod.fst (Attrs.set rest key v) ↔
          x = key ∨ x ∈ List.map Prod.fst rest := ih
      simp only [Attrs.set, Attrs.keys, if_neg hk, List.map_cons, List.mem_cons, ih1]
      tauto

theorem Attrs.nodup_keys_set (m : Attrs) (key : String) (v : Val)
    (h : (Attrs.keys m).Nodup) : (Attrs.keys (Attrs.set m key v)).Nodup := by
  induction m with
  | nil => simp [Attrs.set, Attrs.keys]
  | cons e rest ih =>
    obtain ⟨k, y⟩ := e
    have h1 : k ∉ Attrs.keys rest ∧ (Attrs.keys rest).Nodup := by
      simpa [Attrs.keys] using h
    by_cases hk : k = key
    · subst hk
      simpa [Attrs.set, Attrs.keys] using h
    · have hmem := Attrs.mem_keys_set rest key v k
      have hnot : k ∉ Attrs.keys (Attrs.set rest key v) := by
        rw [hmem]
        rintro (h2 | h2)
        · exact hk h2
        · exact h1.1 h2
      have ih1 := ih h1.2
      simp only [Attrs.set, if_neg hk]
      exact List.nodup_cons.mpr ⟨hnot, ih1⟩

theorem Attrs.get_set_self (m : Attrs) (key : String) (v : Val) :
    Attrs.get (Attrs.set m key v) key = v := by
  induction m with
  | nil => simp [Attrs.set, Attrs.get, List.lookup]
  | cons e rest ih =>
    obtain ⟨k, y⟩ := e
    by_cases hk : k = key
    · subst hk
      simp [Attrs.set, Attrs.get, List.lookup]
    · have hb : (key == k) = false := by
        simpa using fun h => hk h.symm
      have ih1 : ((List.lookup key (Attrs.set rest key v)).getD Val.nil) = v := ih
      simp [Attrs.set, Attrs.get, List.lookup, if_neg hk, hb, ih1]

theorem Attrs.get_set_ne (m : Attrs) (key : String) (v : Val) (x : String) (hx : x ≠ key) :
    Attrs.get (Attrs.set m key v) x = Attrs.get m x := by
  induction m with
  | nil =>
    have hb : (x == key) = false := by simpa using hx
    simp [Attrs.set, Attrs.get, List.lookup, hb]
  | cons e rest ih =>
    obtain ⟨k, y⟩ := e
    have hb : (x == key) = false := by simpa using hx
    have ih1 : ((List.lookup x (Attrs.set rest key v)).getD Val.nil) =
        ((List.lookup x rest).getD Val.nil) := ih
    by_cases hk : k = key
    · subst hk
      simp [Attrs.set, Attrs.get, List.lookup, hb]
    · by_cases hxk : x = k
      · subst hxk
        simp [Attrs.set, Attrs.get, List.lookup, if_neg hk]
      · have hb2 : (x == k) = false := by simpa using hxk
        simp [Attrs.set, Attrs.get, List.lookup, if_neg hk, hb2, ih1]

theorem Attrs.keys_set (m : Attrs) (key : String) (v : Val) :
    Attrs.keys (Attrs.set m key v) =
      if key ∈ Attrs.keys m then Attrs.keys m else Attrs.keys m ++ [key] := by
  induction m with
  | nil => simp [Attrs.set, Attrs.keys]
  | cons e rest ih =>
    obtain ⟨k, y⟩ := e
    have ih1 : List.map Prod.fst (Attrs.set rest key v) =
        if key ∈ List.map Prod.fst rest then List.map Prod.fst rest
        else List.map Prod.fst rest ++ [key] := ih
    by_cases hk : k = key
    · subst hk
      simp [Attrs.set, Attrs.keys]
    · have hk2 : ¬ key = k := fun h => hk h.symm
      by_cases hm : key ∈ List.map Prod.fst rest
      · simp only [Attrs.set, Attrs.keys, if_neg hk, List.map_cons, ih1, if_pos hm,
          List.mem_cons, hk2, false_or]
      · simp only [Attrs.set, Attrs.keys, if_neg hk, List.map_cons, ih1, if_neg hm,
          List.mem_cons, hk2, false_or, List.cons_append]

/-! ## `extractMapValue`: one field -/

theorem extractField_of_not_included (c : Collaborators) (attrs : Attrs) (clock : Nat)
    (field : Field) (h : ¬ field.included) :
    extractField c attrs clock field = (attrs, clock) := by
  unfold extractField
  have hc : (field.Relationship.isNone && !field.IsIgnored && !field.IsPrimaryKey) = false := by
    unfold Field.included at h
    cases hr : field.Relationship <;> cases hi : field.IsIgnored <;>
      cases hp : field.IsPrimaryKey <;> simp_all
  simp [hc]

theorem extractField_timestamp (c : Collaborators) (attrs : Attrs) (clock : Nat)
    (field : Field) (h : field.included) (ht : field.isTimestamp) :
    extractField c attrs clock field =
      (attrs.set field.DBName (Val.time (c.Now clock)), clock + 1) := by
  unfold extractField
  obtain ⟨h1, h2, h3⟩ := h
  have hn : (field.Name == "CreatedAt" || field.Name == "UpdatedAt") = true := by
    unfold Field.isTimestamp at ht
    simpa using ht
  simp [h1, h2, h3, hn]

theorem extractField_default (c : Collaborators) (attrs : Attrs) (clock : Nat)
    (field : Field) (h : field.included) (ht : ¬ field.isTimestamp) (d : String)
    (hd : field.HasDefaultValue = true) (hb : field.IsBlank = true)
    (htag : field.TagSettingsGet "DEFAULT" = some d) :
    extractField c attrs clock field = (attrs.set field.DBName (Val.str d), clock) := by
  unfold extractField
  obtain ⟨h1, h2, h3⟩ := h
  have hn : (field.Name == "CreatedAt" || field.Name == "UpdatedAt") = false := by
    unfold Field.isTimestamp at ht
    simpa using ht
  simp [h1, h2, h3, hn, hd, hb, htag]

theorem extractField_current (c : Collaborators) (attrs : Attrs) (clock : Nat)
    (field : Field) (h : field.included) (ht : ¬ field.isTimestamp)
    (hd : ¬ (field.HasDefaultValue = true ∧ field.IsBlank = true ∧
      (field.TagSettingsGet "DEFAULT").isSome = true)) :
    extractField c attrs clock field = (attrs.set field.DBName field.Value, clock) := by
  unfold extractField
  obtain ⟨h1, h2, h3⟩ := h
  have hn : (field.Name == "CreatedAt" || field.Name == "UpdatedAt") = false := by
    unfold Field.isTimestamp at ht
    simpa using ht
  cases hdv : field.HasDefaultValue <;> cases hbl : field.IsBlank <;>
    cases htag : field.TagSettingsGet "DEFAULT" <;> simp_all

/-- An included field writes some value under its column name and nothing else. -/
theorem extractField_included (c : Collaborators) (attrs : Attrs) (clock : Nat)
    (field : Field) (h : field.included) :
    ∃ v, (extractField c attrs clock field).1 = attrs.set field.DBName v := by
  by_cases ht : field.isTimestamp
  · exact ⟨_, by rw [extractField_timestamp c attrs clock field h ht]⟩
  · by_cases hd : field.HasDefaultValue = true ∧ field.IsBlank = true ∧
        (field.TagSettingsGet "DEFAULT").isSome = true
    · obtain ⟨hd1, hd2, hd3⟩ := hd
      obtain ⟨d, hdd⟩ := Option.isSome_iff_exists.mp hd3
      exact ⟨_, by rw [extractField_default c attrs clock field h ht d hd1 hd2 hdd]⟩
    · exact ⟨_, by rw [extractField_current c attrs clock field h ht hd]⟩

theorem extractField_clock_le (c : Collaborators) (attrs : Attrs) (clock : Nat)
    (field : Field) : clock ≤ (extractField c attrs clock field).2 := by
  by_cases h : field.included
  · by_cases ht : field.isTimestamp
    · rw [extractField_timestamp c attrs clock field h ht]; simp
    · by_cases hd : field.HasDefaultValue = true ∧ field.IsBlank = true ∧
          (field.TagSettingsGet "DEFAULT").isSome = true
      · obtain ⟨hd1, hd2, hd3⟩ := hd
        obtain ⟨d, hdd⟩ := Option.isSome_iff_exists.mp hd3
        rw [extractField_default c attrs clock field h ht d hd1 hd2 hdd]
      · rw [extractField_current c attrs clock field h ht hd]
  · rw [extractField_of_not_included c attrs clock field h]

/-- A field that is not an included field of column `key` leaves the entry of `key`
as it is. -/
theorem extractField_get_other (c : Collaborators) (attrs : Attrs) (clock : Nat)
    (field : Field) (key : String) (h : ¬ (field.included ∧ field.DBName = key)) :
    (extractField c attrs clock field).1.get key = attrs.get key := by
  by_cases hi : field.included
  · obtain ⟨v, hv⟩ := extractField_included c attrs clock field hi
    rw [hv]
    apply Attrs.get_set_ne
    intro hk
    exact h ⟨hi, hk.symm⟩
  · rw [extractField_of_not_included c attrs clock field hi]

/-! ## `extractMapValue`: the loop over the fields -/

theorem extractFields_clock_le (c : Collaborators) (fields : List Field) :
    ∀ (attrs : Attrs) (clock : Nat), clock ≤ (extractFields c fields attrs clock).2 := by
  induction fields with
  | nil => intro attrs clock; simp [extractFields]
  | cons field rest ih =>
    intro attrs clock
    simp only [extractFields]
    exact le_trans (extractField_clock_le c attrs clock field) (ih _ _)

theorem extractFields_mem_keys (c : Collaborators) (fields : List Field) (key : String) :
    ∀ (attrs : Attrs) (clock : Nat),
      key ∈ Attrs.keys (extractFields c fields attrs clock).1 ↔
        key ∈ Attrs.keys attrs ∨ ∃ f ∈ fields, f.included ∧ f.DBName = key := by
  induction fields with
  | nil => intro attrs clock; simp [extractFields]
  | cons field rest ih =>
    intro attrs clock
    simp only [extractFields]
    rw [ih]
    by_cases hi : field.included
    · obtain ⟨v, hv⟩ := extractField_included c attrs clock field hi
      rw [hv, Attrs.mem_keys_set]
      constructor
      · rintro ((h | h) | ⟨f, hf, hfi, hfk⟩)
        · exact Or.inr ⟨field, List.mem_cons_self _ _, hi, h.symm⟩
        · exact Or.inl h
        · exact Or.inr ⟨f, List.mem_cons_of_mem _ hf, hfi, hfk⟩
      · rintro (h | ⟨f, hf, hfi, hfk⟩)
        · exact Or.inl (Or.inr h)
        · rcases List.mem_cons.mp hf with h | h
          · subst h
            exact Or.inl (Or.inl hfk.symm)
          · exact Or.inr ⟨f, h, hfi, hfk⟩
    · rw [extractField_of_not_included c attrs clock field hi]
      constructor
      · rintro (h | ⟨f, hf, hfi, hfk⟩)
        · exact Or.inl h
        · exact Or.inr ⟨f, List.mem_cons_of_mem _ hf, hfi, hfk⟩
      · rintro (h | ⟨f, hf, hfi, hfk⟩)
        · exact Or.inl h
        · rcases List.mem_cons.mp hf with h | h
          · subst h
            exact absurd hfi hi
          · exact Or.inr ⟨f, h, hfi, hfk⟩

theorem extractFields_nodup_keys (c : Collaborators) (fields : List Field) :
    ∀ (attrs : Attrs) (clock : Nat), (Attrs.keys attrs).Nodup →
      (Attrs.keys (extractFields c fields attrs clock).1).Nodup := by
  induction fields with
  | nil => intro attrs clock h; simpa [extractFields] using h
  | cons field rest ih =>
    intro attrs clock h
    simp only [extractFields]
    apply ih
    by_cases hi : field.included
    · obtain ⟨v, hv⟩ := extractField_included c attrs clock field hi
      rw [hv]
      exact Attrs.nodup_keys_set attrs _ _ h
    · rw [extractField_of_not_included c attrs clock field hi]
      exact h

/-- The keys written do not depend on the clock, on the collaborators or on the values
already in the map. -/
theorem extractFields_keys_eq (c c' : Collaborators) (fields : List Field) :
    ∀ (attrs attrs' : Attrs) (clock clock' : Nat), Attrs.keys attrs = Attrs.keys attrs' →
      Attrs.keys (extractFields c fields attrs clock).1 =
        Attrs.keys (extractFields c' fields attrs' clock').1 := by
  induction fields with
  | nil => intro attrs attrs' clock clock' h; simpa [extractFields] using h
  | cons field rest ih =>
    intro attrs attrs' clock clock' h
    simp only [extractFields]
    apply ih
    by_cases hi : field.included
    · obtain ⟨v, hv⟩ := extractField_included c attrs clock field hi
      obtain ⟨v', hv'⟩ := extractField_included c' attrs' clock' field hi
      rw [hv, hv', Attrs.keys_set, Attrs.keys_set, h]
    · rw [extractField_of_not_included c attrs clock field hi,
        extractField_of_not_included c' attrs' clock' field hi]
      exact h

/-- The entry of a column whose included fields all write the value `v`. -/
theorem extractFields_get_const (c : Collaborators) (key : String) (v : Val)
    (fields : List Field) :
    ∀ (attrs : Attrs) (clock : Nat),
      (∀ g ∈ fields, g.included → g.DBName = key →
        ∀ a t, (extractField c a t g).1 = a.set key v) →
      ((∃ g ∈ fields, g.included ∧ g.DBName = key) ∨ attrs.get key = v) →
      (extractFields c fields attrs clock).1.get key = v := by
  induction fields with
  | nil =>
    intro attrs clock _ h
    rcases h with ⟨g, hg, _⟩ | h
    · simp at hg
    · simpa [extractFields] using h
  | cons field rest ih =>
    intro attrs clock hw h
    simp only [extractFields]
    apply ih
    · intro g hg
      exact hw g (List.mem_cons_of_mem _ hg)
    · by_cases hf : field.included ∧ field.DBName = key
      · right
        rw [hw field (List.mem_cons_self _ _) hf.1 hf.2 attrs clock]
        exact Attrs.get_set_self attrs key v
      · rcases h with ⟨g, hg, hgi, hgk⟩ | h
        · rcases List.mem_cons.mp hg with h1 | h1
          · subst h1
            exact absurd ⟨hgi, hgk⟩ hf
          · exact Or.inl ⟨g, h1, hgi, hgk⟩
        · right
          rw [extractField_get_other c attrs clock field key hf]
          exact h

/-- The entry of a column whose included fields are all timestamp fields: a clock
reading taken during the loop. -/
theorem extractFields_get_timestamp (c : Collaborators) (key : String) (lo : Nat)
    (fields : List Field) :
    ∀ (attrs : Attrs) (clock : Nat), lo ≤ clock →
      (∀ g ∈ fields, g.included → g.DBName = key → g.isTimestamp) →
      ((∃ g ∈ fields, g.included ∧ g.DBName = key) ∨
        ∃ n, lo ≤ n ∧ n < clock ∧ attrs.get key = Val.time (c.Now n)) →
      ∃ n, lo ≤ n ∧ n < (extractFields c fields attrs clock).2 ∧
        (extractFields c fields attrs clock).1.get key = Val.time (c.Now n) := by
  induction fields with
  | nil =>
    intro attrs clock _ _ h
    rcases h with ⟨g, hg, _⟩ | h
    · simp at hg
    · simpa [extractFields] using h
  | cons field rest ih =>
    intro attrs clock hlo hw h
    simp only [extractFields]
    have hmono := extractField_clock_le c attrs clock field
    apply ih _ _ (le_trans hlo hmono)
    · intro g hg
      exact hw g (List.mem_cons_of_mem _ hg)
    · by_cases hf : field.included ∧ field.DBName = key
      · right
        have hts := hw field (List.mem_cons_self _ _) hf.1 hf.2
        rw [extractField_timestamp c attrs clock field hf.1 hts]
        refine ⟨clock, hlo, Nat.lt_succ_self _, ?_⟩
        rw [hf.2]
        exact Attrs.get_set_self attrs key _
      · rcases h with ⟨g, hg, hgi, hgk⟩ | ⟨n, hn1, hn2, hn3⟩
        · rcases List.mem_cons.mp hg with h1 | h1
          · subst h1
            exact absurd ⟨hgi, hgk⟩ hf
          · exact Or.inl ⟨g, h1, hgi, hgk⟩
        · right
          refine ⟨n, hn1, lt_of_lt_of_le hn2 hmono, ?_⟩
          rw [extractField_get_other c attrs clock field key hf]
          exact hn3

theorem forgetTimestamp_included (field : Field) :
    (forgetTimestamp field).included ↔ field.included := by
  unfold forgetTimestamp Field.included
  split <;> simp

theorem extractField_forgetTimestamp (c : Collaborators) (attrs : Attrs) (clock : Nat)
    (field : Field) :
    extractField c attrs clock (forgetTimestamp field) = extractField c attrs clock field := by
  by_cases ht : field.isTimestamp
  · have hft : forgetTimestamp field =
        { field with Value := Val.nil, IsBlank := false } := by
      simp only [forgetTimestamp, if_pos ht]
    have ht2 : (forgetTimestamp field).isTimestamp := by
      rw [hft]
      exact ht
    have hdb : (forgetTimestamp field).DBName = field.DBName := by
      rw [hft]
    by_cases hi : field.included
    · rw [extractField_timestamp c attrs clock _ ((forgetTimestamp_included field).mpr hi) ht2,
        extractField_timestamp c attrs clock field hi ht, hdb]
    · rw [extractField_of_not_included c attrs clock _
          (fun h => hi ((forgetTimestamp_included field).mp h)),
        extractField_of_not_included c attrs clock field hi]
  · simp only [forgetTimestamp, if_neg ht]

theorem extractFields_forgetTimestamp (c : Collaborators) (fields : List Field) :
    ∀ (attrs : Attrs) (clock : Nat),
      extractFields c (fields.map forgetTimestamp) attrs clock =
        extractFields c fields attrs clock := by
  induction fields with
  | nil => intro attrs clock; rfl
  | cons field rest ih =>
    intro attrs clock
    simp only [List.map_cons, extractFields, extractField_forgetTimestamp, ih]

theorem extractMapValue_struct (c : Collaborators) (clock : Nat) (value : Obj)
    (h : value.kind = Kind.struct) :
    extractMapValue c clock value =
      ((some (extractFields c value.fields [] clock).1, none),
        (extractFields c value.fields [] clock).2) := by
  unfold extractMapValue
  simp [h]

theorem extractMapValue_not_struct (c : Collaborators) (clock : Nat) (value : Obj)
    (h : value.kind ≠ Kind.struct) :
    extractMapValue c clock value = ((none, some "value must be kind of Struct"), clock) := by
  unfold extractMapValue
  simp [h]

/-- C10: `extractMapValue` fails if and only if the kind of the value is not struct; it
then returns the error "value must be kind of Struct" and a nil map, so a pointer, a map,
a slice, a scalar or nil (kind invalid) is rejected; for a struct it returns a map and a
nil error. -/
theorem extractMapValue_fails_iff_not_struct (c : Collaborators) (clock : Nat) (value : Obj) :
    ((extractMapValue c clock value).1.2 ≠ none ↔ value.kind ≠ Kind.struct) ∧
    (value.kind ≠ Kind.struct →
      (extractMapValue c clock value).1 = (none, some "value must be kind of Struct")) ∧
    (value.kind ∈ [Kind.ptr, Kind.map, Kind.slice, Kind.int, Kind.string, Kind.invalid] →
      (extractMapValue c clock value).1 = (none, some "value must be kind of Struct")) ∧
    (value.kind = Kind.struct →
      ∃ attrs, (extractMapValue c clock value).1 = (some attrs, none)) := by
  by_cases h : value.kind = Kind.struct
  · rw [extractMapValue_struct c clock value h]
    simp [h]
  · rw [extractMapValue_not_struct c clock value h]
    simp [h]

/-- C7: for a struct record, a column name is a key of the mapping returned by
`extractMapValue` if and only if it is the column name of a field that is not a
relationship, not ignored and not the primary key; every key occurs once. -/
theorem extractMapValue_keys (c : Collaborators) (clock : Nat) (value : Obj)
    (h : value.kind = Kind.struct) :
    ∃ attrs, (extractMapValue c clock value).1 = (some attrs, none) ∧
      (Attrs.keys attrs).Nodup ∧
      ∀ key, key ∈ Attrs.keys attrs ↔
        ∃ f ∈ value.fields, (f.Relationship = none ∧ f.IsIgnored = false ∧
          f.IsPrimaryKey = false) ∧ f.DBName = key := by
  refine ⟨(extractFields c value.fields [] clock).1, ?_, ?_, ?_⟩
  · rw [extractMapValue_struct c clock value h]
  · exact extractFields_nodup_keys c value.fields [] clock (by simp [Attrs.keys])
  · intro key
    rw [extractFields_mem_keys]
    simp [Attrs.keys, Field.included]

theorem extractMapValue_keys_witness :
    sampleUser.kind = Kind.struct ∧
    ∃ attrs, (extractMapValue sampleCollaborators 0 sampleUser).1 = (some attrs, none) ∧
      (Attrs.keys attrs).Nodup ∧
      ∀ key, key ∈ Attrs.keys attrs ↔
        ∃ f ∈ sampleUser.fields, (f.Relationship = none ∧ f.IsIgnored = false ∧
          f.IsPrimaryKey = false) ∧ f.DBName = key :=
  ⟨by decide, extractMapValue_keys sampleCollaborators 0 sampleUser (by decide)⟩

/-- C5: for a struct record and an included field that is not named `CreatedAt` or
`UpdatedAt` and whose column name no other included field shares, the mapping holds under
the column name the declared default when the field declares one (gorm flags a default
and the `DEFAULT` tag setting gives it) and is blank, and the current value of the field
otherwise; a field that is not blank keeps its value. -/
theorem extractMapValue_default_or_current (c : Collaborators) (clock : Nat) (value : Obj)
    (f : Field) (h : value.kind = Kind.struct) (hf : f ∈ value.fields)
    (hi : f.Relationship = none ∧ f.IsIgnored = false ∧ f.IsPrimaryKey = false)
    (ht : ¬ (f.Name = "CreatedAt" ∨ f.Name = "UpdatedAt"))
    (hu : ∀ g ∈ value.fields,
      (g.Relationship = none ∧ g.IsIgnored = false ∧ g.IsPrimaryKey = false) →
        g.DBName = f.DBName → g = f) :
    ∃ attrs, (extractMapValue c clock value).1 = (some attrs, none) ∧
      f.DBName ∈ Attrs.keys attrs ∧
      (∀ d, f.HasDefaultValue = true → f.IsBlank = true →
        f.TagSettingsGet "DEFAULT" = some d → attrs.get f.DBName = Val.str d) ∧
      (¬ (f.HasDefaultValue = true ∧ f.IsBlank = true ∧
        (f.TagSettingsGet "DEFAULT").isSome = true) → attrs.get f.DBName = f.Value) ∧
      (f.IsBlank = false → attrs.get f.DBName = f.Value) := by
  have hsome : ∃ g ∈ value.fields, g.included ∧ g.DBName = f.DBName := ⟨f, hf, hi, rfl⟩
  refine ⟨(extractFields c value.fields [] clock).1, ?_, ?_, ?_, ?_, ?_⟩
  · rw [extractMapValue_struct c clock value h]
  · rw [extractFields_mem_keys]
    exact Or.inr hsome
  · intro d hd hb htag
    apply extractFields_get_const c f.DBName (Val.str d) value.fields [] clock _ (Or.inl hsome)
    intro g hg hgi hgk a t
    have hgf := hu g hg hgi hgk
    subst hgf
    rw [extractField_default c a t g hi ht d hd hb htag]
  · intro hd
    apply extractFields_get_const c f.DBName f.Value value.fields [] clock _ (Or.inl hsome)
    intro g hg hgi hgk a t
    have hgf := hu g hg hgi hgk
    subst hgf
    rw [extractField_current c a t g hi ht hd]
  · intro hb
    apply extractFields_get_const c f.DBName f.Value value.fields [] clock _ (Or.inl hsome)
    intro g hg hgi hgk a t
    have hgf := hu g hg hgi hgk
    subst hgf
    rw [extractField_current c a t g hi ht (by simp [hb])]

theorem extractMapValue_default_or_current_witness :
    (extractMapValue sampleCollaborators 0 sampleUser).1 =
      (some [("name", Val.str "a"), ("role", Val.str "guest"),
        ("created_at", Val.time 1000)], none) ∧
    ∃ attrs, (extractMapValue sampleCollaborators 0 sampleUser).1 = (some attrs, none) ∧
      roleField.DBName ∈ Attrs.keys attrs ∧
      (∀ d, roleField.HasDefaultValue = true → roleField.IsBlank = true →
        roleField.TagSettingsGet "DEFAULT" = some d →
          attrs.get roleField.DBName = Val.str d) ∧
      (¬ (roleField.HasDefaultValue = true ∧ roleField.IsBlank = true ∧
        (roleField.TagSettingsGet "DEFAULT").isSome = true) →
          attrs.get roleField.DBName = roleField.Value) ∧
      (roleField.IsBlank = false → attrs.get roleField.DBName = roleField.Value) :=
  ⟨by decide,
    extractMapValue_default_or_current sampleCollaborators 0 sampleUser roleField
      (by decide) (by decide) (by decide) (by decide) (by decide)⟩

/-- C6: for a struct record and an included field named `CreatedAt` or `UpdatedAt` whose
column name no other included field shares, the mapping holds under the column name a
clock reading taken during the extraction, whatever the field stores; and two struct
records whose fields differ only in what the fields of those names store extract to the
same result from the same clock state. -/
theorem extractMapValue_timestamp (c : Collaborators) (clock : Nat) (value : Obj)
    (f : Field) (h : value.kind = Kind.struct) (hf : f ∈ value.fields)
    (hi : f.Relationship = none ∧ f.IsIgnored = false ∧ f.IsPrimaryKey = false)
    (ht : f.Name = "CreatedAt" ∨ f.Name = "UpdatedAt")
    (hu : ∀ g ∈ value.fields,
      (g.Relationship = none ∧ g.IsIgnored = false ∧ g.IsPrimaryKey = false) →
        g.DBName = f.DBName → g = f) :
    (∃ attrs n, (extractMapValue c clock value).1 = (some attrs, none) ∧
      clock ≤ n ∧ n < (extractMapValue c clock value).2 ∧
      attrs.get f.DBName = Val.time (c.Now n)) ∧
    ∀ other : Obj, other.kind = Kind.struct →
      other.fields.map forgetTimestamp = value.fields.map forgetTimestamp →
      extractMapValue c clock other = extractMapValue c clock value := by
  constructor
  · have hsome : ∃ g ∈ value.fields, g.included ∧ g.DBName = f.DBName := ⟨f, hf, hi, rfl⟩
    obtain ⟨n, hn1, hn2, hn3⟩ :=
      extractFields_get_timestamp c f.DBName clock value.fields [] clock (le_refl _)
        (fun g hg hgi hgk => by rw [hu g hg hgi hgk]; exact ht) (Or.inl hsome)
    refine ⟨(extractFields c value.fields [] clock).1, n, ?_, hn1, ?_, hn3⟩
    · rw [extractMapValue_struct c clock value h]
    · rw [extractMapValue_struct c clock value h]
      exact hn2
  · intro other ho hfields
    rw [extractMapValue_struct c clock value h, extractMapValue_struct c clock other ho,
      ← extractFields_forgetTimestamp c other.fields,
      ← extractFields_forgetTimestamp c value.fields, hfields]

theorem extractMapValue_timestamp_witness :
    (∃ attrs n, (extractMapValue sampleCollaborators 0 sampleUser).1 = (some attrs, none) ∧
      0 ≤ n ∧ n < (extractMapValue sampleCollaborators 0 sampleUser).2 ∧
      attrs.get createdAtField.DBName = Val.time (sampleCollaborators.Now n)) ∧
    ∀ other : Obj, other.kind = Kind.struct →
      other.fields.map forgetTimestamp = sampleUser.fields.map forgetTimestamp →
      extractMapValue sampleCollaborators 0 other =
        extractMapValue sampleCollaborators 0 sampleUser :=
  extractMapValue_timestamp sampleCollaborators 0 sampleUser createdAtField
    (by decide) (by decide) (by decide) (by decide) (by decide)

/-! ## The Chunker -/

theorem chunks_nil {α : Type} (k fuel : Nat) : chunks k fuel ([] : List α) = [] := by
  cases fuel <;> rfl

/-- With a positive size and enough fuel the groups reproduce the input, every group has
between one and `k` elements, and every group but the last has exactly `k`. -/
theorem chunks_spec {α : Type} (k : Nat) (hk : 0 < k) :
    ∀ (fuel : Nat) (xs : List α), xs.length ≤ fuel →
      (chunks k fuel xs).flatten = xs ∧
      (∀ g ∈ chunks k fuel xs, 0 < g.length ∧ g.length ≤ k) ∧
      (∀ g ∈ (chunks k fuel xs).dropLast, g.length = k) := by
  intro fuel
  induction fuel with
  | zero =>
    intro xs hx
    have hnil : xs = [] := List.length_eq_zero.mp (Nat.le_zero.mp hx)
    subst hnil
    simp [chunks]
  | succ fuel ih =>
    intro xs hx
    cases xs with
    | nil => simp [chunks]
    | cons x xs =>
      have hdrop : ((x :: xs).drop k).length ≤ fuel := by
        rw [List.length_drop]
        simp only [List.length_cons] at hx ⊢
        omega
      obtain ⟨h1, h2, h3⟩ := ih ((x :: xs).drop k) hdrop
      have hstep : chunks k (fuel + 1) (x :: xs) =
          (x :: xs).take k :: chunks k fuel ((x :: xs).drop k) := rfl
      rw [hstep]
      refine ⟨?_, ?_, ?_⟩
      · rw [List.flatten_cons, h1, List.take_append_drop]
      · intro g hg
        rcases List.mem_cons.mp hg with h | h
        · subst h
          rw [List.length_take]
          simp only [List.length_cons]
          omega
        · exact h2 g h
      · intro g hg
        by_cases hrest : chunks k fuel ((x :: xs).drop k) = []
        · rw [hrest] at hg
          simp at hg
        · rw [List.dropLast_cons_of_ne_nil hrest] at hg
          rcases List.mem_cons.mp hg with h | h
          · subst h
            have hne : (x :: xs).drop k ≠ [] := by
              intro h0
              rw [h0, chunks_nil] at hrest
              exact hrest rfl
            have hlen : k < (x :: xs).length := by
              by_contra hcon
              exact hne (List.drop_eq_nil_of_le (Nat.le_of_not_lt hcon))
            rw [List.length_take]
            omega
          · exact h3 g h

theorem splitObjects_of_pos {α : Type} (nonPositive : List α → Int → List (List α))
    (objects : List α) (chunkSize : Int) (h : 0 < chunkSize) :
    splitObjects nonPositive objects chunkSize =
      chunks chunkSize.toNat objects.length objects := by
  unfold splitObjects
  rw [if_pos h]

theorem splitObjects_of_nonpos {α : Type} (nonPositive : List α → Int → List (List α))
    (objects : List α) (chunkSize : Int) (h : chunkSize ≤ 0) :
    splitObjects nonPositive objects chunkSize = nonPositive objects chunkSize := by
  unfold splitObjects
  rw [if_neg (not_lt.mpr h)]

/-- C8: for a chunk size `k > 0` the groups `BulkInsert` loops over are those of
`splitObjects`; concatenated in order they equal the input, every group but the last has
exactly `k` records, every group (so also the last) has between 1 and `k`, the empty input
gives no group, and three records with `k = 2` give a group of two and a group of one. -/
theorem splitObjects_groups (nonPositive : List Obj → Int → List (List Obj))
    (objects : List Obj) (k : Int) (hk : 0 < k) :
    (∀ c w, BulkInsert nonPositive c w objects k =
      insertGroups c w (splitObjects nonPositive objects k)) ∧
    (splitObjects nonPositive objects k).flatten = objects ∧
    (∀ g ∈ (splitObjects nonPositive objects k).dropLast, (g.length : Int) = k) ∧
    (∀ g ∈ splitObjects nonPositive objects k, 1 ≤ g.length ∧ (g.length : Int) ≤ k) ∧
    splitObjects nonPositive [] k = [] ∧
    ∀ a b d : Obj, splitObjects nonPositive [a, b, d] 2 = [[a, b], [d]] := by
  have hpos : 0 < k.toNat := by omega
  have hcast : (k.toNat : Int) = k := Int.toNat_of_nonneg (le_of_lt hk)
  obtain ⟨h1, h2, h3⟩ := chunks_spec k.toNat hpos objects.length objects (le_refl _)
  rw [splitObjects_of_pos nonPositive objects k hk]
  refine ⟨fun c w => ?_, h1, ?_, ?_, ?_, ?_⟩
  · unfold BulkInsert
    rw [splitObjects_of_pos nonPositive objects k hk]
  · intro g hg
    rw [h3 g hg, hcast]
  · intro g hg
    obtain ⟨ha, hb⟩ := h2 g hg
    refine ⟨ha, ?_⟩
    rw [← hcast]
    exact_mod_cast hb
  · rw [splitObjects_of_pos nonPositive [] k hk]
    exact chunks_nil _ _
  · intro a b d
    rfl

theorem splitObjects_groups_witness :
    (0 : Int) < 2 ∧
    splitObjects (fun _ _ => []) [sampleUser, sampleUser, sampleUser] 2 =
      [[sampleUser, sampleUser], [sampleUser]] ∧
    (∀ c w, BulkInsert (fun _ _ => []) c w [sampleUser, sampleUser, sampleUser] 2 =
      insertGroups c w (splitObjects (fun _ _ => []) [sampleUser, sampleUser, sampleUser] 2)) ∧
    (splitObjects (fun _ _ => []) [sampleUser, sampleUser, sampleUser] 2).flatten =
      [sampleUser, sampleUser, sampleUser] ∧
    BulkInsert (fun _ _ => []) sampleCollaborators freshWorld [rowAB, rowAB, rowAB] 2 =
      (none, { clock := 0,
               sent := [{ SQL := "INSERT INTO ab (a, b) VALUES (?, ?), (?, ?)",
                          Vars := [Val.int 1, Val.int 2, Val.int 1, Val.int 2] },
                        { SQL := "INSERT INTO ab (a, b) VALUES (?, ?)",
                          Vars := [Val.int 1, Val.int 2] }] }) :=
  ⟨by decide, by decide,
    (splitObjects_groups (fun _ _ => []) [sampleUser, sampleUser, sampleUser] 2
      (by decide)).1,
    (splitObjects_groups (fun _ _ => []) [sampleUser, sampleUser, sampleUser] 2
      (by decide)).2.1, by decide⟩

/-! ## `insertObjSet`: the loops -/

theorem attrsAt_struct (c : Collaborators) (clock : Nat) (o : Obj)
    (h : o.kind = Kind.struct) :
    attrsAt c clock o = (extractFields c o.fields [] clock).1 := by
  unfold attrsAt
  rw [extractMapValue_struct c clock o h]
  rfl

theorem attrsAt_not_struct (c : Collaborators) (clock : Nat) (o : Obj)
    (h : o.kind ≠ Kind.struct) : attrsAt c clock o = [] := by
  unfold attrsAt
  rw [extractMapValue_not_struct c clock o h]
  rfl

/-- The keys of the extracted mapping depend on the record only. -/
theorem keys_attrsAt (c c' : Collaborators) (clock clock' : Nat) (o : Obj) :
    Attrs.keys (attrsAt c clock o) = Attrs.keys (attrsAt c' clock' o) := by
  by_cases h : o.kind = Kind.struct
  · rw [attrsAt_struct c clock o h, attrsAt_struct c' clock' o h]
    exact extractFields_keys_eq c c' o.fields [] [] clock clock' rfl
  · rw [attrsAt_not_struct c clock o h, attrsAt_not_struct c' clock' o h]

theorem length_attrsAt (c : Collaborators) (clock : Nat) (o : Obj) :
    (attrsAt c clock o).length = entryCount c o := by
  have h := congrArg List.length (keys_attrsAt c c clock 0 o)
  simpa [Attrs.keys, entryCount] using h

theorem nodup_keys_attrsAt (c : Collaborators) (clock : Nat) (o : Obj) :
    (Attrs.keys (attrsAt c clock o)).Nodup := by
  by_cases h : o.kind = Kind.struct
  · rw [attrsAt_struct c clock o h]
    exact extractFields_nodup_keys c o.fields [] clock (by simp [Attrs.keys])
  · rw [attrsAt_not_struct c clock o h]
    simp [Attrs.keys]

theorem length_sortedKeys (a : Attrs) : (sortedKeys a).length = a.length := by
  unfold sortedKeys
  rw [List.length_insertionSort]
  simp [Attrs.keys]

/-- The inner loop binds the values of the keys in order and returns one placeholder for
each. -/
theorem appendVariables_eq (c : Collaborators) (objAttrs : Attrs) (keys : List String) :
    ∀ (vars : List String) (scope : Scope),
      appendVariables c objAttrs keys vars scope =
        (vars ++ (List.range keys.length).map
            (fun i => c.BindVar (scope.SQLVars.length + i + 1)),
          { scope with SQLVars := scope.SQLVars ++ keys.map (fun key => objAttrs.get key) }) := by
  induction keys with
  | nil => intro vars scope; simp [appendVariables]
  | cons key rest ih =>
    intro vars scope
    simp only [appendVariables, ih, AddToVars, List.length_cons, List.length_append,
      List.length_singleton, List.map_cons, List.append_assoc, List.singleton_append]
    rw [List.range_succ_eq_map]
    simp only [List.map_cons, List.map_map, Nat.add_zero]
    refine Prod.ext ?_ rfl
    simp only [List.cons.injEq, List.append_cancel_left_eq, List.length_nil, Nat.zero_add,
      true_and]
    apply List.map_congr_left
    intro i _
    simp only [Function.comp]
    congr 1
    omega

theorem appendVariables_fresh (c : Collaborators) (o : Obj) (a : Attrs) :
    appendVariables c a (sortedKeys a) [] (NewScope o) =
      (rowPlaceholders c a.length, { NewScope o with SQLVars := rowValues a }) := by
  rw [appendVariables_eq]
  simp [NewScope, rowPlaceholders, rowValues, length_sortedKeys]

theorem insertRows_step_ok (c : Collaborators) (attrSize : Nat) (obj : Obj)
    (rest : List Obj) (clock : Nat) (placeholders : List String) (mainScope : Scope)
    (h : passes c attrSize obj) :
    insertRows c attrSize (obj :: rest) clock placeholders mainScope =
      insertRows c attrSize rest (extractMapValue c clock obj).2
        (placeholders ++ [valueQuery c (attrsAt c clock obj).length])
        { mainScope with SQLVars := mainScope.SQLVars ++ rowValues (attrsAt c clock obj) } := by
  obtain ⟨hk, hn⟩ := h
  have hlen : (attrsAt c clock obj).length = attrSize := by
    rw [length_attrsAt, hn]
  have hattrs := attrsAt_struct c clock obj hk
  rw [hattrs] at hlen
  rw [hattrs]
  simp only [insertRows, extractMapValue_struct c clock obj hk, Option.getD_some, hlen,
    bne_self_eq_false, Bool.false_eq_true, if_false, appendVariables_fresh, valueQuery]

theorem insertRows_step_fail (c : Collaborators) (attrSize : Nat) (obj : Obj)
    (rest : List Obj) (clock : Nat) (placeholders : List String) (mainScope : Scope)
    (h : ¬ passes c attrSize obj) :
    (insertRows c attrSize (obj :: rest) clock placeholders mainScope).1 =
      some (rejection obj) := by
  by_cases hk : obj.kind = Kind.struct
  · have hn : entryCount c obj ≠ attrSize := fun hn => h ⟨hk, hn⟩
    have hlen : (extractFields c obj.fields [] clock).1.length ≠ attrSize := by
      rw [← attrsAt_struct c clock obj hk, length_attrsAt]
      exact hn
    simp [insertRows, extractMapValue_struct c clock obj hk, hlen, rejection, hk]
  · simp [insertRows, extractMapValue_not_struct c clock obj hk, rejection, hk]

/-- When every record passes, the loop collects one value tuple and the bound values of
every row, in record order. -/
theorem insertRows_ok (c : Collaborators) (attrSize : Nat) (objs : List Obj) :
    ∀ (clock : Nat) (placeholders : List String) (mainScope : Scope),
      (∀ o ∈ objs, passes c attrSize o) →
      insertRows c attrSize objs clock placeholders mainScope =
        (none, clockAfterRows c clock objs,
          placeholders ++ (rowAttrs c clock objs).map (fun a => valueQuery c a.length),
          { mainScope with
            SQLVars := mainScope.SQLVars ++ ((rowAttrs c clock objs).map rowValues).flatten }) := by
  induction objs with
  | nil =>
    intro clock placeholders mainScope _
    simp [insertRows, clockAfterRows, rowAttrs]
  | cons obj rest ih =>
    intro clock placeholders mainScope h
    rw [insertRows_step_ok c attrSize obj rest clock placeholders mainScope
      (h obj (List.mem_cons_self _ _))]
    rw [ih _ _ _ (fun o ho => h o (List.mem_cons_of_mem _ ho))]
    simp [clockAfterRows, rowAttrs, List.append_assoc]

/-- The loop returns the rejection of the first record that does not pass. -/
theorem insertRows_fail (c : Collaborators) (attrSize : Nat) (pre : List Obj) :
    ∀ (clock : Nat) (placeholders : List String) (mainScope : Scope) (r : Obj)
      (post : List Obj), (∀ o ∈ pre, passes c attrSize o) → ¬ passes c attrSize r →
      (insertRows c attrSize (pre ++ r :: post) clock placeholders mainScope).1 =
        some (rejection r) := by
  induction pre with
  | nil =>
    intro clock placeholders mainScope r post _ hr
    exact insertRows_step_fail c attrSize r post clock placeholders mainScope hr
  | cons obj rest ih =>
    intro clock placeholders mainScope r post h hr
    rw [List.cons_append, insertRows_step_ok c attrSize obj _ clock placeholders mainScope
      (h obj (List.mem_cons_self _ _))]
    exact ih _ _ _ r post (fun o ho => h o (List.mem_cons_of_mem _ ho)) hr

/-- A list with an element that fails a test splits at the first such element. -/
theorem exists_first_failing {α : Type} (P : α → Prop) (l : List α)
    (h : ∃ x ∈ l, ¬ P x) :
    ∃ pre x post, l = pre ++ x :: post ∧ (∀ y ∈ pre, P y) ∧ ¬ P x := by
  induction l with
  | nil =>
    obtain ⟨x, hx, _⟩ := h
    simp at hx
  | cons a rest ih =>
    by_cases ha : P a
    · have hrest : ∃ x ∈ rest, ¬ P x := by
        obtain ⟨x, hx, hpx⟩ := h
        rcases List.mem_cons.mp hx with h1 | h1
        · subst h1
          exact absurd ha hpx
        · exact ⟨x, h1, hpx⟩
      obtain ⟨pre, x, post, hl, hpre, hx⟩ := ih hrest
      refine ⟨a :: pre, x, post, by rw [hl]; rfl, ?_, hx⟩
      intro y hy
      rcases List.mem_cons.mp hy with h1 | h1
      · subst h1
        exact ha
      · exact hpre y h1
    · exact ⟨[], a, rest, rfl, by simp, ha⟩

/-! ## `insertObjSet` -/

/-- A non-empty group all of whose records are structs with as many entries as the first:
`insertObjSet` hands the one statement `builtStatement` to the driver and returns what
`Exec` returns. -/
theorem insertObjSet_builds (c : Collaborators) (w : World) (first : Obj) (rest : List Obj)
    (h : ∀ o ∈ first :: rest, passes c (entryCount c first) o) :
    insertObjSet c w (first :: rest) =
      Exec c { w with clock := clockAfterRows c (extractMapValue c w.clock first).2 (first :: rest) }
        (builtStatement c w.clock first (first :: rest)) := by
  have hk : first.kind = Kind.struct := (h first (List.mem_cons_self _ _)).1
  have hlen : (extractFields c first.fields [] w.clock).1.length = entryCount c first := by
    rw [← attrsAt_struct c w.clock first hk, length_attrsAt]
  have hattrs := attrsAt_struct c w.clock first hk
  have hext := extractMapValue_struct c w.clock first hk
  have hclock : (extractMapValue c w.clock first).2 =
      (extractFields c first.fields [] w.clock).2 := by rw [hext]
  unfold insertObjSet builtStatement
  simp only [hext, Option.getD_some, hlen]
  rw [insertRows_ok c (entryCount c first) (first :: rest) _ _ _ h]
  simp only [hattrs, NewScope, List.nil_append]

/-- A non-empty group that splits at a first record `r` that is not a struct or has another
number of entries than the first record: `insertObjSet` returns the rejection of `r` and
hands nothing to the driver. -/
theorem insertObjSet_rejects (c : Collaborators) (w : World) (first : Obj)
    (rest pre post : List Obj) (r : Obj) (hsplit : first :: rest = pre ++ r :: post)
    (hpre : ∀ o ∈ pre, passes c (entryCount c first) o)
    (hr : ¬ passes c (entryCount c first) r) :
    (insertObjSet c w (first :: rest)).1 = some (rejection r) ∧
      (insertObjSet c w (first :: rest)).2.sent = w.sent := by
  by_cases hk : first.kind = Kind.struct
  · have hlen : (extractFields c first.fields [] w.clock).1.length = entryCount c first := by
      rw [← attrsAt_struct c w.clock first hk, length_attrsAt]
    have hext := extractMapValue_struct c w.clock first hk
    have hfail := insertRows_fail c (entryCount c first) pre
      (extractFields c first.fields [] w.clock).2 [] (NewScope first) r post hpre hr
    rw [← hsplit] at hfail
    unfold insertObjSet
    simp only [hext, Option.getD_some, hlen]
    generalize insertRows c (entryCount c first) (first :: rest)
      (extractFields c first.fields [] w.clock).2 [] (NewScope first) = res at hfail
    obtain ⟨e, t, p, s⟩ := res
    simp only at hfail
    subst hfail
    simp
  · have hfirst : r = first := by
      cases pre with
      | nil =>
        simp only [List.nil_append, List.cons.injEq] at hsplit
        exact hsplit.1.symm
      | cons a pre' =>
        simp only [List.cons_append, List.cons.injEq] at hsplit
        have := (hpre a (List.mem_cons_self _ _)).1
        rw [← hsplit.1] at this
        exact absurd this hk
    subst hfirst
    unfold insertObjSet
    simp [extractMapValue_not_struct c w.clock r hk, rejection, hk]

/-! ## `sortedKeys` -/

theorem keyLE_total : IsTotal String keyLE := ⟨fun a b => le_total a.toList b.toList⟩

theorem keyLE_trans : IsTrans String keyLE :=
  ⟨fun a _ _ hab hbd => le_trans (a := a.toList) hab hbd⟩

theorem keyLE_antisymm : IsAntisymm String keyLE :=
  ⟨fun a _ hab hba => String.ext (le_antisymm (a := a.toList) hab hba)⟩

theorem keyLE_iff_le (a b : String) : keyLE a b ↔ a ≤ b := by
  unfold keyLE
  exact String.le_iff_toList_le.symm

theorem sortedKeys_sorted (a : Attrs) : (sortedKeys a).Sorted keyLE :=
  haveI := keyLE_total
  haveI := keyLE_trans
  List.sorted_insertionSort keyLE _

theorem sortedKeys_perm (a : Attrs) : (sortedKeys a).Perm (Attrs.keys a) :=
  List.perm_insertionSort keyLE _

theorem mem_sortedKeys (a : Attrs) (key : String) :
    key ∈ sortedKeys a ↔ key ∈ Attrs.keys a :=
  (sortedKeys_perm a).mem_iff

/-- Two maps with the same keys have the same sorted key list. -/
theorem sortedKeys_congr (a b : Attrs) (ha : (Attrs.keys a).Nodup) (hb : (Attrs.keys b).Nodup)
    (h : ∀ key, key ∈ Attrs.keys a ↔ key ∈ Attrs.keys b) : sortedKeys a = sortedKeys b := by
  have hperm : (Attrs.keys a).Perm (Attrs.keys b) := (List.perm_ext_iff_of_nodup ha hb).mpr h
  haveI := keyLE_antisymm
  exact List.eq_of_perm_of_sorted
    (((sortedKeys_perm a).trans hperm).trans (sortedKeys_perm b).symm)
    (sortedKeys_sorted a) (sortedKeys_sorted b)

/-! ## `insertObjSet`: ordering of rows and rejection of groups -/

theorem rowAttrs_forall₂ (c : Collaborators) (objs : List Obj) :
    ∀ clock, List.Forall₂ (fun o a => ∃ t, a = attrsAt c t o) objs (rowAttrs c clock objs) := by
  induction objs with
  | nil => intro clock; exact List.Forall₂.nil
  | cons o rest ih =>
    intro clock
    exact List.Forall₂.cons ⟨clock, rfl⟩ (ih _)

theorem nodup_keys_of_mem_rowAttrs (c : Collaborators) (objs : List Obj) :
    ∀ clock, ∀ a ∈ rowAttrs c clock objs, (Attrs.keys a).Nodup := by
  induction objs with
  | nil => intro clock a ha; simp [rowAttrs] at ha
  | cons o rest ih =>
    intro clock a ha
    rcases List.mem_cons.mp ha with h | h
    · subst h
      exact nodup_keys_attrsAt c clock o
    · exact ih _ a h

/-- C3: in a non-empty group with a record that is not a struct (its extraction fails) or
whose mapping has another number of entries than the first record's (`entryCount`, the
same at every clock count), `insertObjSet` returns an error and hands no statement to the
driver; the error is that of the first such record, "attribute sizes are inconsistent"
when that record is a struct with a differing entry count, and so whenever all records of
the group are structs. -/
theorem insertObjSet_rejects_group (c : Collaborators) (w : World) (first : Obj)
    (rest : List Obj)
    (h : ∃ r ∈ first :: rest, r.kind ≠ Kind.struct ∨ entryCount c r ≠ entryCount c first) :
    ∃ err, (insertObjSet c w (first :: rest)).1 = some err ∧
      (insertObjSet c w (first :: rest)).2.sent = w.sent ∧
      (∀ pre r post, first :: rest = pre ++ r :: post →
        (∀ o ∈ pre, o.kind = Kind.struct ∧ entryCount c o = entryCount c first) →
        ((r.kind = Kind.struct ∧ entryCount c r ≠ entryCount c first →
          err = "attribute sizes are inconsistent") ∧
        (r.kind ≠ Kind.struct → err = "value must be kind of Struct"))) ∧
      ((∀ o ∈ first :: rest, o.kind = Kind.struct) →
        err = "attribute sizes are inconsistent") := by
  have hex : ∃ r ∈ first :: rest, ¬ passes c (entryCount c first) r := by
    obtain ⟨r, hr, hbad⟩ := h
    refine ⟨r, hr, fun hp => ?_⟩
    rcases hbad with hb | hb
    · exact hb hp.1
    · exact hb hp.2
  obtain ⟨pre, r, post, hsplit, hpre, hr⟩ :=
    exists_first_failing (passes c (entryCount c first)) (first :: rest) hex
  obtain ⟨herr, hsent⟩ := insertObjSet_rejects c w first rest pre post r hsplit hpre hr
  refine ⟨rejection r, herr, hsent, ?_, ?_⟩
  · intro pre' r' post' hsplit' hpre'
    have herr' : (insertObjSet c w (first :: rest)).1 = some (rejection r') →
        rejection r = rejection r' := fun h2 => Option.some.inj (herr.symm.trans h2)
    constructor
    · intro hr'
      have hnot : ¬ passes c (entryCount c first) r' := fun hp => hr'.2 hp.2
      have h2 := (insertObjSet_rejects c w first rest pre' post' r' hsplit' hpre' hnot).1
      rw [herr' h2]
      simp [rejection, hr'.1]
    · intro hr'
      have hnot : ¬ passes c (entryCount c first) r' := fun hp => hr' hp.1
      have h2 := (insertObjSet_rejects c w first rest pre' post' r' hsplit' hpre' hnot).1
      rw [herr' h2]
      simp [rejection, hr']
  · intro hall
    have hrk : r.kind = Kind.struct := by
      apply hall
      rw [hsplit]
      simp
    simp [rejection, hrk]

theorem insertObjSet_rejects_group_witness :
    (∃ r ∈ [sampleUser, sampleTag],
      r.kind ≠ Kind.struct ∨
        entryCount sampleCollaborators r ≠ entryCount sampleCollaborators sampleUser) ∧
    (insertObjSet sampleCollaborators freshWorld [sampleUser, sampleTag]).1 =
      some "attribute sizes are inconsistent" ∧
    ∃ err, (insertObjSet sampleCollaborators freshWorld [sampleUser, sampleTag]).1 = some err ∧
      (insertObjSet sampleCollaborators freshWorld [sampleUser, sampleTag]).2.sent =
        freshWorld.sent ∧
      (∀ pre r post, [sampleUser, sampleTag] = pre ++ r :: post →
        (∀ o ∈ pre, o.kind = Kind.struct ∧
          entryCount sampleCollaborators o = entryCount sampleCollaborators sampleUser) →
        ((r.kind = Kind.struct ∧
            entryCount sampleCollaborators r ≠ entryCount sampleCollaborators sampleUser →
          err = "attribute sizes are inconsistent") ∧
        (r.kind ≠ Kind.struct → err = "value must be kind of Struct"))) ∧
      ((∀ o ∈ [sampleUser, sampleTag], o.kind = Kind.struct) →
        err = "attribute sizes are inconsistent") :=
  ⟨⟨sampleTag, by simp, Or.inr (by decide)⟩, by decide,
    insertObjSet_rejects_group sampleCollaborators freshWorld sampleUser [sampleTag]
      ⟨sampleTag, by simp, Or.inr (by decide)⟩⟩

/-! ## `BulkInsert`: the loop over the groups -/

theorem insertGroups_cons_ok (c : Collaborators) (w : World) (g : List Obj)
    (rest : List (List Obj)) (h : (insertObjSet c w g).1 = none) :
    insertGroups c w (g :: rest) = insertGroups c (insertObjSet c w g).2 rest := by
  rcases hres : insertObjSet c w g with ⟨e, w1⟩
  rw [hres] at h
  simp only at h
  subst h
  simp [insertGroups, hres]

theorem insertGroups_cons_err (c : Collaborators) (w : World) (g : List Obj)
    (rest : List (List Obj)) (e : Error) (h : (insertObjSet c w g).1 = some e) :
    insertGroups c w (g :: rest) = (some e, (insertObjSet c w g).2) := by
  rcases hres : insertObjSet c w g with ⟨e1, w1⟩
  rw [hres] at h
  simp only at h
  subst h
  simp [insertGroups, hres]

theorem worldAfter_append (c : Collaborators) (pre : List (List Obj)) :
    ∀ (w : World) (post : List (List Obj)),
      worldAfter c w (pre ++ post) = worldAfter c (worldAfter c w pre) post := by
  induction pre with
  | nil => intro w post; rfl
  | cons g rest ih =>
    intro w post
    show worldAfter c (insertObjSet c w g).2 (rest ++ post) = _
    rw [ih]
    rfl

/-- When every group succeeds in its turn the loop returns nil after running them all. -/
theorem insertGroups_all_ok (c : Collaborators) (groups : List (List Obj)) :
    ∀ w : World,
      (∀ p1 g p2, groups = p1 ++ g :: p2 → (insertObjSet c (worldAfter c w p1) g).1 = none) →
      insertGroups c w groups = (none, worldAfter c w groups) := by
  induction groups with
  | nil => intro w _; rfl
  | cons g rest ih =>
    intro w h
    have hg : (insertObjSet c w g).1 = none := h [] g rest rfl
    rw [insertGroups_cons_ok c w g rest hg]
    simp only [worldAfter]
    apply ih
    intro p1 g1 p2 hsplit
    have := h (g :: p1) g1 p2 (by rw [hsplit]; rfl)
    simpa [worldAfter] using this

/-- The loop returns the error of the first group that fails in its turn, after running
the groups up to and including that one. -/
theorem insertGroups_first_error (c : Collaborators) (pre : List (List Obj)) :
    ∀ (w : World) (g : List Obj) (post : List (List Obj)) (e : Error),
      (∀ p1 g1 p2, pre = p1 ++ g1 :: p2 →
        (insertObjSet c (worldAfter c w p1) g1).1 = none) →
      (insertObjSet c (worldAfter c w pre) g).1 = some e →
      insertGroups c w (pre ++ g :: post) = (some e, worldAfter c w (pre ++ [g])) := by
  induction pre with
  | nil =>
    intro w g post e _ hg
    simp only [worldAfter] at hg
    rw [List.nil_append, insertGroups_cons_err c w g post e hg]
    rfl
  | cons g0 rest ih =>
    intro w g post e hpre hg
    have hg0 : (insertObjSet c w g0).1 = none := hpre [] g0 rest rfl
    rw [List.cons_append, insertGroups_cons_ok c w g0 _ hg0]
    simp only [List.cons_append, worldAfter]
    apply ih
    · intro p1 g1 p2 hsplit
      have := hpre (g0 :: p1) g1 p2 (by rw [hsplit]; rfl)
      simpa [worldAfter] using this
    · simpa [worldAfter] using hg

/-- A nil result means that every group succeeded in its turn. -/
theorem insertGroups_ok_all (c : Collaborators) (groups : List (List Obj)) :
    ∀ w : World, (insertGroups c w groups).1 = none →
      ∀ p1 g p2, groups = p1 ++ g :: p2 →
        (insertObjSet c (worldAfter c w p1) g).1 = none := by
  induction groups with
  | nil =>
    intro w _ p1 g p2 hsplit
    simp at hsplit
  | cons g0 rest ih =>
    intro w h p1 g p2 hsplit
    have hg0 : (insertObjSet c w g0).1 = none := by
      cases hres : (insertObjSet c w g0).1 with
      | none => rfl
      | some e =>
        rw [insertGroups_cons_err c w g0 rest e hres] at h
        simp at h
    cases p1 with
    | nil =>
      simp only [List.nil_append, List.cons.injEq] at hsplit
      rw [← hsplit.1]
      exact hg0
    | cons q p1 =>
      simp only [List.cons_append, List.cons.injEq] at hsplit
      rw [insertGroups_cons_ok c w g0 rest hg0] at h
      rw [← hsplit.1]
      simp only [worldAfter]
      exact ih _ h p1 g p2 hsplit.2

/-- A group on which `insertObjSet` fails in every world makes the loop fail. -/
theorem insertGroups_error_of_mem (c : Collaborators) (g : List Obj)
    (hg : ∀ w, (insertObjSet c w g).1 ≠ none) (groups : List (List Obj)) :
    ∀ w : World, g ∈ groups → (insertGroups c w groups).1 ≠ none := by
  induction groups with
  | nil => intro w h; simp at h
  | cons g0 rest ih =>
    intro w hmem
    cases hres : (insertObjSet c w g0).1 with
    | some e =>
      rw [insertGroups_cons_err c w g0 rest e hres]
      simp
    | none =>
      rw [insertGroups_cons_ok c w g0 rest hres]
      rcases List.mem_cons.mp hmem with h1 | h1
      · subst h1
        exact absurd hres (hg w)
      · exact ih _ h1

/-- C2: `BulkInsert` runs `insertObjSet` on the groups of the chunker in order. If a group
fails in its turn, all earlier ones having succeeded, `BulkInsert` returns exactly its
error, and the world is the one after the groups up to and including it: the earlier
statements stay executed and no later group is processed. It returns nil if and only if
no group fails in its turn, and then every group was run. -/
theorem BulkInsert_first_error (nonPositive : List Obj → Int → List (List Obj))
    (c : Collaborators) (w : World) (objects : List Obj) (chunkSize : Int) :
    (∀ pre g post e, splitObjects nonPositive objects chunkSize = pre ++ g :: post →
      (∀ p1 g1 p2, pre = p1 ++ g1 :: p2 →
        (insertObjSet c (worldAfter c w p1) g1).1 = none) →
      (insertObjSet c (worldAfter c w pre) g).1 = some e →
      BulkInsert nonPositive c w objects chunkSize =
        (some e, (insertObjSet c (worldAfter c w pre) g).2)) ∧
    ((BulkInsert nonPositive c w objects chunkSize).1 = none ↔
      ∀ p1 g p2, splitObjects nonPositive objects chunkSize = p1 ++ g :: p2 →
        (insertObjSet c (worldAfter c w p1) g).1 = none) ∧
    ((BulkInsert nonPositive c w objects chunkSize).1 = none →
      (BulkInsert nonPositive c w objects chunkSize).2 =
        worldAfter c w (splitObjects nonPositive objects chunkSize)) := by
  refine ⟨?_, ⟨?_, ?_⟩, ?_⟩
  · intro pre g post e hsplit hpre hg
    unfold BulkInsert
    rw [hsplit, insertGroups_first_error c pre w g post e hpre hg, worldAfter_append]
    rfl
  · intro h
    exact insertGroups_ok_all c _ w h
  · intro h
    unfold BulkInsert
    rw [insertGroups_all_ok c _ w h]
  · intro h
    have hall := insertGroups_ok_all c _ w h
    unfold BulkInsert
    rw [insertGroups_all_ok c _ w hall]

theorem BulkInsert_first_error_witness :
    BulkInsert (fun _ _ => []) sampleCollaborators freshWorld
        [rowAB, rowAB, rowAB, sampleUser] 2 =
      (some "attribute sizes are inconsistent",
        (insertObjSet sampleCollaborators
          (worldAfter sampleCollaborators freshWorld [[rowAB, rowAB]]) [rowAB, sampleUser]).2) ∧
    (insertObjSet sampleCollaborators
        (worldAfter sampleCollaborators freshWorld [[rowAB, rowAB]]) [rowAB, sampleUser]).2 =
      { clock := 1,
        sent := [{ SQL := "INSERT INTO ab (a, b) VALUES (?, ?), (?, ?)",
                   Vars := [Val.int 1, Val.int 2, Val.int 1, Val.int 2] }] } :=
  ⟨(BulkInsert_first_error (fun _ _ => []) sampleCollaborators freshWorld
      [rowAB, rowAB, rowAB, sampleUser] 2).1
    [[rowAB, rowAB]] [rowAB, sampleUser] [] "attribute sizes are inconsistent"
    (by decide)
    (by
      intro p1 g1 p2 hsplit
      cases p1 with
      | nil =>
        simp only [List.nil_append, List.cons.injEq] at hsplit
        rw [← hsplit.1]
        decide
      | cons q p1 =>
        simp only [List.cons_append, List.cons.injEq] at hsplit
        exact absurd hsplit.2 (by simp))
    (by decide), by decide⟩

/-! ## Groups of records with different shapes -/

/-- C4, counterexample: a record with the columns `a, b` and a record with the columns
`a, c` have different sets of column names, yet `insertObjSet` and `BulkInsert` return nil
on the group of the two and hand a statement for it to the driver. -/
theorem insertObjSet_accepts_different_columns :
    rowAB.kind = Kind.struct ∧ rowAC.kind = Kind.struct ∧
    Attrs.keys (attrsAt sampleCollaborators 0 rowAB) = ["a", "b"] ∧
    Attrs.keys (attrsAt sampleCollaborators 0 rowAC) = ["a", "c"] ∧
    insertObjSet sampleCollaborators freshWorld [rowAB, rowAC] =
      (none, { clock := 0,
               sent := [{ SQL := "INSERT INTO ab (a, b) VALUES (?, ?), (?, ?)",
                          Vars := [Val.int 1, Val.int 2, Val.int 3, Val.int 4] }] }) ∧
    (BulkInsert (fun _ _ => []) sampleCollaborators freshWorld [rowAB, rowAC] 2).1 = none := by
  decide

/-- C4, amended: in a non-empty group in which the mapping extracted from some record has
another number of column names than that of the first record, `insertObjSet` fails with
an error and hands no statement to the driver, and `BulkInsert` fails whenever such a
group is among the groups of the chunker. -/
theorem insertObjSet_rejects_column_count (nonPositive : List Obj → Int → List (List Obj))
    (c : Collaborators) (first : Obj) (rest : List Obj)
    (h : ∃ r ∈ first :: rest,
      (Attrs.keys (attrsAt c 0 r)).length ≠ (Attrs.keys (attrsAt c 0 first)).length) :
    (∀ w, ∃ err, (insertObjSet c w (first :: rest)).1 = some err ∧
      (insertObjSet c w (first :: rest)).2.sent = w.sent) ∧
    ∀ w objects chunkSize, first :: rest ∈ splitObjects nonPositive objects chunkSize →
      ∃ err, (BulkInsert nonPositive c w objects chunkSize).1 = some err := by
  have hex : ∃ r ∈ first :: rest, ¬ passes c (entryCount c first) r := by
    obtain ⟨r, hr, hbad⟩ := h
    refine ⟨r, hr, fun hp => hbad ?_⟩
    simpa [Attrs.keys, entryCount] using hp.2
  obtain ⟨pre, r, post, hsplit, hpre, hr⟩ :=
    exists_first_failing (passes c (entryCount c first)) (first :: rest) hex
  have hfail : ∀ w, (insertObjSet c w (first :: rest)).1 = some (rejection r) ∧
      (insertObjSet c w (first :: rest)).2.sent = w.sent :=
    fun w => insertObjSet_rejects c w first rest pre post r hsplit hpre hr
  refine ⟨fun w => ⟨rejection r, hfail w⟩, ?_⟩
  intro w objects chunkSize hmem
  have hne := insertGroups_error_of_mem c (first :: rest)
    (fun w1 => by rw [(hfail w1).1]; simp) _ w hmem
  exact Option.ne_none_iff_exists'.mp hne

theorem insertObjSet_rejects_column_count_witness :
    (∃ r ∈ [rowAB, sampleTag],
      (Attrs.keys (attrsAt sampleCollaborators 0 r)).length ≠
        (Attrs.keys (attrsAt sampleCollaborators 0 rowAB)).length) ∧
    (∀ w, ∃ err, (insertObjSet sampleCollaborators w [rowAB, sampleTag]).1 = some err ∧
      (insertObjSet sampleCollaborators w [rowAB, sampleTag]).2.sent = w.sent) ∧
    ∀ w objects chunkSize,
      [rowAB, sampleTag] ∈ splitObjects (fun _ _ => []) objects chunkSize →
      ∃ err, (BulkInsert (fun _ _ => []) sampleCollaborators w objects chunkSize).1 =
        some err :=
  ⟨⟨sampleTag, by simp, by decide⟩,
    insertObjSet_rejects_column_count (fun _ _ => []) sampleCollaborators rowAB [sampleTag]
      ⟨sampleTag, by simp, by decide⟩⟩

/-! ## `BulkInsert` with a chunk size that is not positive -/

theorem insertObjSet_nil (c : Collaborators) (w : World) : insertObjSet c w [] = (none, w) :=
  rfl

/-- A group that repeats one struct record is accepted when the driver accepts every
statement. -/
theorem insertObjSet_ok_of_repeat (c : Collaborators) (w : World) (r : Obj) (g : List Obj)
    (hr : r.kind = Kind.struct) (hexec : ∀ log stmt, c.Exec log stmt = none)
    (hg : ∀ o ∈ g, o = r) : (insertObjSet c w g).1 = none := by
  cases g with
  | nil => rfl
  | cons first rest =>
    have hfirst : first = r := hg first (List.mem_cons_self _ _)
    have hpass : ∀ o ∈ first :: rest, passes c (entryCount c first) o := by
      intro o ho
      rw [hg o ho, hfirst]
      exact ⟨hr, rfl⟩
    rw [insertObjSet_builds c w first rest hpass]
    exact hexec _ _

theorem insertGroups_error_source (c : Collaborators) (groups : List (List Obj)) :
    ∀ (w : World) (e : Error), (insertGroups c w groups).1 = some e →
      ∃ g ∈ groups, ∃ w1, (insertObjSet c w1 g).1 = some e := by
  induction groups with
  | nil => intro w e h; simp [insertGroups] at h
  | cons g0 rest ih =>
    intro w e h
    cases hres : (insertObjSet c w g0).1 with
    | some e0 =>
      rw [insertGroups_cons_err c w g0 rest e0 hres] at h
      simp only [Option.some.injEq] at h
      subst h
      exact ⟨g0, List.mem_cons_self _ _, w, hres⟩
    | none =>
      rw [insertGroups_cons_ok c w g0 rest hres] at h
      obtain ⟨g, hg, w1, hw1⟩ := ih _ e h
      exact ⟨g, List.mem_cons_of_mem _ hg, w1, hw1⟩

theorem insertGroups_all_nil (c : Collaborators) (groups : List (List Obj)) :
    ∀ w : World, (∀ g ∈ groups, g = []) → insertGroups c w groups = (none, w) := by
  induction groups with
  | nil => intro w _; rfl
  | cons g0 rest ih =>
    intro w h
    have h0 : g0 = [] := h g0 (List.mem_cons_self _ _)
    subst h0
    rw [insertGroups_cons_ok c w [] rest rfl, insertObjSet_nil]
    exact ih w (fun g hg => h g (List.mem_cons_of_mem _ hg))

theorem insertGroups_ok_of_groups_ok (c : Collaborators) (groups : List (List Obj)) :
    ∀ w : World, (∀ g ∈ groups, ∀ w1, (insertObjSet c w1 g).1 = none) →
      (insertGroups c w groups).1 = none := by
  intro w h
  rw [insertGroups_all_ok c groups w]
  intro p1 g p2 hsplit
  apply h
  rw [hsplit]
  simp

/-- C9, counterexample: with chunk size 0, whatever the chunker does for a chunk size
that is not positive, be it that its call never returns or that it returns groups made of
records of the input, `BulkInsert` returns no error for the empty sequence and for the
sequence of the one record `rowAB`: with the chunker that loops it does not return, with
the chunker that yields the input as one group it returns nil after inserting the record,
with the chunker that yields no group it returns nil and the record is not inserted. -/
theorem BulkInsert_chunkSize_zero_no_error :
    (¬ ∃ chunker : List Obj → Int → Option (List (List Obj)),
      (∀ objects k groups, chunker objects k = some groups →
        ∀ g ∈ groups, ∀ o ∈ g, o ∈ objects) ∧
      ((∃ e w1, BulkInsertWith chunker sampleCollaborators freshWorld [] 0 =
          some (some e, w1)) ∨
        (∃ e w1, BulkInsertWith chunker sampleCollaborators freshWorld [rowAB] 0 =
          some (some e, w1)))) ∧
    BulkInsertWith (fun _ _ => none) sampleCollaborators freshWorld [rowAB] 0 = none ∧
    BulkInsertWith (fun objects _ => some [objects]) sampleCollaborators freshWorld
        [rowAB] 0 =
      some (none, { clock := 0,
                    sent := [{ SQL := "INSERT INTO ab (a, b) VALUES (?, ?)",
                               Vars := [Val.int 1, Val.int 2] }] }) ∧
    BulkInsertWith (fun _ _ => some []) sampleCollaborators freshWorld [rowAB] 0 =
      some (none, freshWorld) := by
  refine ⟨?_, by decide, by decide, by decide⟩
  rintro ⟨chunker, hsub, hfail⟩
  rcases hfail with ⟨e, w1, h⟩ | ⟨e, w1, h⟩
  · unfold BulkInsertWith at h
    cases hc : chunker [] 0 with
    | none => rw [hc] at h; simp at h
    | some groups =>
      rw [hc] at h
      have hok : (insertGroups sampleCollaborators freshWorld groups).1 = none := by
        apply insertGroups_ok_of_groups_ok
        intro g hg w2
        have hnil : g = [] := by
          cases g with
          | nil => rfl
          | cons o rest =>
            exact absurd (hsub [] 0 groups hc _ hg o (List.mem_cons_self _ _)) (by simp)
        rw [hnil]
        rfl
      simp only [Option.some.injEq] at h
      rw [h] at hok
      simp at hok
  · unfold BulkInsertWith at h
    cases hc : chunker [rowAB] 0 with
    | none => rw [hc] at h; simp at h
    | some groups =>
      rw [hc] at h
      have hok : (insertGroups sampleCollaborators freshWorld groups).1 = none := by
        apply insertGroups_ok_of_groups_ok
        intro g hg w2
        apply insertObjSet_ok_of_repeat sampleCollaborators w2 rowAB g (by decide)
          (fun _ _ => rfl)
        intro o ho
        simpa using hsub [rowAB] 0 groups hc g hg o ho
      simp only [Option.some.injEq] at h
      rw [h] at hok
      simp at hok

/-- C9, amended: for a chunk size that is not positive `BulkInsert` checks nothing itself
and does what the chunker lets it do. If the call of the chunker does not return,
`BulkInsert` does not return. If it returns groups, `BulkInsert` runs `insertObjSet` on
them in order: it returns the error of the first group that fails in its turn, with the
world as that group left it, and it returns nil after running all the groups when none
fails, so with no group or only empty groups it returns nil and leaves the world as it
was. For a chunker that always returns this is `BulkInsert` over `splitObjects`. -/
theorem BulkInsert_nonpositive_chunkSize
    (chunker : List Obj → Int → Option (List (List Obj))) (c : Collaborators) (w : World)
    (objects : List Obj) (chunkSize : Int) (hk : chunkSize ≤ 0) :
    (chunker objects chunkSize = none →
      BulkInsertWith chunker c w objects chunkSize = none) ∧
    (∀ groups, chunker objects chunkSize = some groups →
      (∀ pre g post e, groups = pre ++ g :: post →
        (∀ p1 g1 p2, pre = p1 ++ g1 :: p2 →
          (insertObjSet c (worldAfter c w p1) g1).1 = none) →
        (insertObjSet c (worldAfter c w pre) g).1 = some e →
        BulkInsertWith chunker c w objects chunkSize =
          some (some e, (insertObjSet c (worldAfter c w pre) g).2)) ∧
      ((∀ p1 g p2, groups = p1 ++ g :: p2 →
          (insertObjSet c (worldAfter c w p1) g).1 = none) →
        BulkInsertWith chunker c w objects chunkSize =
          some (none, worldAfter c w groups)) ∧
      ((∀ g ∈ groups, g = []) →
        BulkInsertWith chunker c w objects chunkSize = some (none, w))) ∧
    ∀ nonPositive : List Obj → Int → List (List Obj),
      BulkInsertWith (fun objs k => some (splitObjects nonPositive objs k)) c w objects
          chunkSize =
        some (BulkInsert nonPositive c w objects chunkSize) ∧
      BulkInsert nonPositive c w objects chunkSize =
        insertGroups c w (nonPositive objects chunkSize) := by
  refine ⟨?_, ?_, ?_⟩
  · intro hc
    unfold BulkInsertWith
    rw [hc]
  · intro groups hc
    have hrun : BulkInsertWith chunker c w objects chunkSize =
        some (insertGroups c w groups) := by
      unfold BulkInsertWith
      rw [hc]
    rw [hrun]
    refine ⟨?_, ?_, ?_⟩
    · intro pre g post e hsplit hpre hg
      rw [hsplit, insertGroups_first_error c pre w g post e hpre hg, worldAfter_append]
      rfl
    · intro hall
      rw [insertGroups_all_ok c groups w hall]
    · intro hnil
      rw [insertGroups_all_nil c groups w hnil]
  · intro nonPositive
    refine ⟨rfl, ?_⟩
    unfold BulkInsert
    rw [splitObjects_of_nonpos nonPositive objects chunkSize hk]

theorem BulkInsert_nonpositive_chunkSize_witness :
    (0 : Int) ≤ 0 ∧
    BulkInsertWith (fun objects _ => some [objects]) sampleCollaborators freshWorld
        [rowAB, sampleTag] 0 =
      some (some "attribute sizes are inconsistent",
        (insertObjSet sampleCollaborators
          (worldAfter sampleCollaborators freshWorld []) [rowAB, sampleTag]).2) ∧
    (insertObjSet sampleCollaborators
        (worldAfter sampleCollaborators freshWorld []) [rowAB, sampleTag]).2 = freshWorld :=
  ⟨by decide,
    ((BulkInsert_nonpositive_chunkSize (fun objects _ => some [objects])
        sampleCollaborators freshWorld [rowAB, sampleTag] 0 (by decide)).2.1
      [[rowAB, sampleTag]] rfl).1 [] [rowAB, sampleTag] [] "attribute sizes are inconsistent"
      rfl (by intro p1 g1 p2 hsplit; simp at hsplit) (by decide),
    by decide⟩

/-! ## `insertObjSet`: the empty group and the driver's result -/

/-- C14: for the empty group `insertObjSet` returns nil and leaves the world as it was: no
clock reading is taken and no statement is handed to the driver. -/
theorem insertObjSet_empty_group (c : Collaborators) (w : World) :
    (insertObjSet c w []).1 = none ∧ (insertObjSet c w []).2 = w ∧
    (insertObjSet c w []).2.sent = w.sent ∧ (insertObjSet c w []).2.clock = w.clock :=
  ⟨rfl, rfl, rfl, rfl⟩

/-- C15: for a non-empty group in which every record is a struct with as many entries as
the first, `insertObjSet` hands exactly one statement to the driver and returns the
driver's result for it: nil when the driver returns nil, the driver's error when it
returns one; in both cases that one statement is all that was handed over. -/
theorem insertObjSet_returns_driver_result (c : Collaborators) (w : World) (first : Obj)
    (rest : List Obj)
    (h : ∀ o ∈ first :: rest, o.kind = Kind.struct ∧ entryCount c o = entryCount c first) :
    ∃ stmt : Statement,
      (insertObjSet c w (first :: rest)).2.sent = w.sent ++ [stmt] ∧
      (insertObjSet c w (first :: rest)).1 = c.Exec w.sent stmt ∧
      (c.Exec w.sent stmt = none → (insertObjSet c w (first :: rest)).1 = none) ∧
      ∀ e, c.Exec w.sent stmt = some e → (insertObjSet c w (first :: rest)).1 = some e := by
  refine ⟨builtStatement c w.clock first (first :: rest), ?_, ?_, ?_, ?_⟩
  · rw [insertObjSet_builds c w first rest h]
    rfl
  · rw [insertObjSet_builds c w first rest h]
    rfl
  · intro hd
    rw [insertObjSet_builds c w first rest h]
    exact hd
  · intro e hd
    rw [insertObjSet_builds c w first rest h]
    exact hd

theorem insertObjSet_returns_driver_result_witness :
    (∀ o ∈ [rowAB, rowAB],
      o.kind = Kind.struct ∧
        entryCount failingCollaborators o = entryCount failingCollaborators rowAB) ∧
    insertObjSet failingCollaborators freshWorld [rowAB, rowAB] =
      (some "driver: connection lost",
        { clock := 0,
          sent := [{ SQL := "INSERT INTO ab (a, b) VALUES (?, ?), (?, ?)",
                     Vars := [Val.int 1, Val.int 2, Val.int 1, Val.int 2] }] }) ∧
    ∃ stmt : Statement,
      (insertObjSet failingCollaborators freshWorld [rowAB, rowAB]).2.sent =
        freshWorld.sent ++ [stmt] ∧
      (insertObjSet failingCollaborators freshWorld [rowAB, rowAB]).1 =
        failingCollaborators.Exec freshWorld.sent stmt ∧
      (failingCollaborators.Exec freshWorld.sent stmt = none →
        (insertObjSet failingCollaborators freshWorld [rowAB, rowAB]).1 = none) ∧
      ∀ e, failingCollaborators.Exec freshWorld.sent stmt = some e →
        (insertObjSet failingCollaborators freshWorld [rowAB, rowAB]).1 = some e :=
  ⟨by decide, by decide,
    insertObjSet_returns_driver_result failingCollaborators freshWorld rowAB [rowAB]
      (by decide)⟩

/-! ## `insertObjSet`: the statement -/

theorem mem_rowAttrs (c : Collaborators) (objs : List Obj) :
    ∀ clock, ∀ a ∈ rowAttrs c clock objs, ∃ o ∈ objs, ∃ t, a = attrsAt c t o := by
  induction objs with
  | nil => intro clock a ha; simp [rowAttrs] at ha
  | cons o rest ih =>
    intro clock a ha
    rcases List.mem_cons.mp ha with h | h
    · exact ⟨o, List.mem_cons_self _ _, clock, h⟩
    · obtain ⟨o1, ho1, t, ht⟩ := ih _ a h
      exact ⟨o1, List.mem_cons_of_mem _ ho1, t, ht⟩

theorem length_rowAttrs (c : Collaborators) (objs : List Obj) :
    ∀ clock, (rowAttrs c clock objs).length = objs.length := by
  induction objs with
  | nil => intro clock; rfl
  | cons o rest ih => intro clock; simp [rowAttrs, ih]

/-- In a group whose records all pass, every extracted mapping has the expected size. -/
theorem length_of_mem_rowAttrs (c : Collaborators) (attrSize : Nat) (objs : List Obj)
    (h : ∀ o ∈ objs, passes c attrSize o) (clock : Nat) :
    ∀ a ∈ rowAttrs c clock objs, a.length = attrSize := by
  intro a ha
  obtain ⟨o, ho, t, ht⟩ := mem_rowAttrs c objs clock a ha
  rw [ht, length_attrsAt]
  exact (h o ho).2

theorem length_flatten_of_length {α : Type} (k : Nat) (rows : List (List α))
    (h : ∀ r ∈ rows, r.length = k) : rows.flatten.length = rows.length * k := by
  induction rows with
  | nil => simp
  | cons r rest ih =>
    rw [List.flatten_cons, List.length_append, h r (List.mem_cons_self _ _),
      ih (fun r1 hr1 => h r1 (List.mem_cons_of_mem _ hr1)), List.length_cons]
    ring

theorem length_rowPlaceholders (c : Collaborators) (n : Nat) :
    (rowPlaceholders c n).length = n := by
  simp [rowPlaceholders]

theorem length_rowValues (a : Attrs) : (rowValues a).length = a.length := by
  simp [rowValues, length_sortedKeys]

/-- C11, counterexample: with gorm's common dialect the placeholders `AddToVars` returns
for the record `rowAB` are the markers `$$$`, so the concatenation the claim describes is
`INSERT INTO ab (a, b) VALUES ($$$, $$$)`, while the statement handed to the driver is
`INSERT INTO ab (a, b) VALUES (?, ?)`, the text as `scope.Raw` stores it. -/
theorem insertObjSet_statement_rewritten :
    (appendVariables commonDialect (attrsAt commonDialect 0 rowAB)
      (sortedKeys (attrsAt commonDialect 0 rowAB)) [] (NewScope rowAB)).1 = ["$$$", "$$$"] ∧
    "INSERT INTO " ++ commonDialect.QuotedTableName rowAB ++ " (" ++
        ", ".intercalate ((sortedKeys (attrsAt commonDialect 0 rowAB)).map
          commonDialect.ToColumnName) ++ ") VALUES " ++
        ", ".intercalate ["(" ++ ", ".intercalate ["$$$", "$$$"] ++ ")"] =
      "INSERT INTO ab (a, b) VALUES ($$$, $$$)" ∧
    (insertObjSet commonDialect freshWorld [rowAB]).2.sent =
      [{ SQL := "INSERT INTO ab (a, b) VALUES (?, ?)", Vars := [Val.int 1, Val.int 2] }] ∧
    "INSERT INTO ab (a, b) VALUES (?, ?)" ≠ "INSERT INTO ab (a, b) VALUES ($$$, $$$)" := by
  decide

/-- C11, amended: for a non-empty group of `n` records on which `insertObjSet` builds a
statement, exactly one statement is handed to the driver. Its text is what `scope.Raw`
stores for "INSERT INTO " + the quoted table name of the first record + " (" + the
columns joined by ", " + ") VALUES " + the value tuples joined by ", "; there are `n`
tuples in record order, each "(" + the placeholders of that record joined by ", " + ")"
with as many placeholders as there are columns; the bound values are the concatenation
in record order of the rows' values, `n` times the column count in all. -/
theorem insertObjSet_statement (c : Collaborators) (w : World) (first : Obj)
    (rest : List Obj)
    (h : ∀ o ∈ first :: rest, o.kind = Kind.struct ∧ entryCount c o = entryCount c first) :
    ∃ (stmt : Statement) (columns : List String) (placeholders : List (List String))
      (values : List (List Val)),
      (insertObjSet c w (first :: rest)).2.sent = w.sent ++ [stmt] ∧
      stmt.SQL = c.Raw ("INSERT INTO " ++ c.QuotedTableName first ++ " (" ++
        ", ".intercalate columns ++ ") VALUES " ++
        ", ".intercalate (placeholders.map (fun p => "(" ++ ", ".intercalate p ++ ")"))) ∧
      columns = (sortedKeys (attrsAt c w.clock first)).map c.ToColumnName ∧
      placeholders.length = (first :: rest).length ∧
      (∀ p ∈ placeholders,
        p = (List.range columns.length).map (fun i => c.BindVar (i + 1)) ∧
          p.length = columns.length) ∧
      stmt.Vars = values.flatten ∧
      List.Forall₂
        (fun o v => ∃ t, v = (sortedKeys (attrsAt c t o)).map
          (fun key => (attrsAt c t o).get key))
        (first :: rest) values ∧
      (∀ v ∈ values, v.length = columns.length) ∧
      stmt.Vars.length = (first :: rest).length * columns.length := by
  have hcols : ((sortedKeys (attrsAt c w.clock first)).map c.ToColumnName).length =
      entryCount c first := by
    rw [List.length_map, length_sortedKeys, length_attrsAt]
  have hrowlen := length_of_mem_rowAttrs c (entryCount c first) (first :: rest) h
    (extractMapValue c w.clock first).2
  have hvals : ∀ v ∈ (rowAttrs c (extractMapValue c w.clock first).2 (first :: rest)).map
      rowValues, v.length = entryCount c first := by
    intro v hv
    obtain ⟨a, ha, hav⟩ := List.mem_map.mp hv
    rw [← hav, length_rowValues]
    exact hrowlen a ha
  refine ⟨builtStatement c w.clock first (first :: rest),
    (sortedKeys (attrsAt c w.clock first)).map c.ToColumnName,
    (rowAttrs c (extractMapValue c w.clock first).2 (first :: rest)).map
      (fun a => rowPlaceholders c a.length),
    (rowAttrs c (extractMapValue c w.clock first).2 (first :: rest)).map rowValues,
    ?_, ?_, rfl, ?_, ?_, rfl, ?_, ?_, ?_⟩
  · rw [insertObjSet_builds c w first rest h]
    rfl
  · simp only [builtStatement, List.map_map]
    rfl
  · rw [List.length_map, length_rowAttrs]
  · intro p hp
    obtain ⟨a, ha, hap⟩ := List.mem_map.mp hp
    rw [← hap, hcols, hrowlen a ha]
    exact ⟨rfl, length_rowPlaceholders c _⟩
  · rw [List.forall₂_map_right_iff]
    refine List.Forall₂.imp ?_ (rowAttrs_forall₂ c _ _)
    rintro o a ⟨t, ht⟩
    exact ⟨t, by rw [ht]; rfl⟩
  · intro v hv
    rw [hcols]
    exact hvals v hv
  · show ((rowAttrs c (extractMapValue c w.clock first).2 (first :: rest)).map
      rowValues).flatten.length = _
    rw [length_flatten_of_length (entryCount c first) _ hvals, List.length_map,
      length_rowAttrs, hcols]

theorem insertObjSet_statement_witness :
    (∀ o ∈ [rowAB, rowAB],
      o.kind = Kind.struct ∧
        entryCount sampleCollaborators o = entryCount sampleCollaborators rowAB) ∧
    (insertObjSet sampleCollaborators freshWorld [rowAB, rowAB]).2.sent =
      [{ SQL := "INSERT INTO ab (a, b) VALUES (?, ?), (?, ?)",
         Vars := [Val.int 1, Val.int 2, Val.int 1, Val.int 2] }] ∧
    ∃ (stmt : Statement) (columns : List String) (placeholders : List (List String))
      (values : List (List Val)),
      (insertObjSet sampleCollaborators freshWorld [rowAB, rowAB]).2.sent =
        freshWorld.sent ++ [stmt] ∧
      stmt.SQL = sampleCollaborators.Raw ("INSERT INTO " ++
        sampleCollaborators.QuotedTableName rowAB ++ " (" ++
        ", ".intercalate columns ++ ") VALUES " ++
        ", ".intercalate (placeholders.map (fun p => "(" ++ ", ".intercalate p ++ ")"))) ∧
      columns = (sortedKeys (attrsAt sampleCollaborators freshWorld.clock rowAB)).map
        sampleCollaborators.ToColumnName ∧
      placeholders.length = [rowAB, rowAB].length ∧
      (∀ p ∈ placeholders,
        p = (List.range columns.length).map (fun i => sampleCollaborators.BindVar (i + 1)) ∧
          p.length = columns.length) ∧
      stmt.Vars = values.flatten ∧
      List.Forall₂
        (fun o v => ∃ t, v = (sortedKeys (attrsAt sampleCollaborators t o)).map
          (fun key => (attrsAt sampleCollaborators t o).get key))
        [rowAB, rowAB] values ∧
      (∀ v ∈ values, v.length = columns.length) ∧
      stmt.Vars.length = [rowAB, rowAB].length * columns.length :=
  ⟨by decide, by decide,
    insertObjSet_statement sampleCollaborators freshWorld rowAB [rowAB] (by decide)⟩

/-- Records that are structs with the key set of the first record pass the checks of the
loop. -/
theorem passes_of_same_keys (c : Collaborators) (first o : Obj) (hs : o.kind = Kind.struct)
    (hk : ∀ key, key ∈ Attrs.keys (attrsAt c 0 o) ↔ key ∈ Attrs.keys (attrsAt c 0 first)) :
    passes c (entryCount c first) o := by
  refine ⟨hs, ?_⟩
  have hperm : (Attrs.keys (attrsAt c 0 o)).Perm (Attrs.keys (attrsAt c 0 first)) :=
    (List.perm_ext_iff_of_nodup (nodup_keys_attrsAt c 0 o)
      (nodup_keys_attrsAt c 0 first)).mpr hk
  have hlen := hperm.length_eq
  simpa [Attrs.keys, entryCount] using hlen

/-- C16: if all records of a non-empty group are structs whose mappings have the same key
set as the first record's (the key set of a record does not depend on the clock), then
`insertObjSet` builds a statement in which the bound values are, row after row in record
order, the record's values under the sorted keys of the first record, the keys the
columns are derived from in that order, and every row has as many placeholders as there
are columns. -/
theorem insertObjSet_same_keys (c : Collaborators) (w : World) (first : Obj)
    (rest : List Obj) (hs : ∀ o ∈ first :: rest, o.kind = Kind.struct)
    (hk : ∀ o ∈ first :: rest, ∀ key,
      key ∈ Attrs.keys (attrsAt c 0 o) ↔ key ∈ Attrs.keys (attrsAt c 0 first)) :
    ∃ (stmt : Statement) (rows : List Attrs),
      (insertObjSet c w (first :: rest)).2.sent = w.sent ++ [stmt] ∧
      stmt.SQL = c.Raw ("INSERT INTO " ++ c.QuotedTableName first ++ " (" ++
        ", ".intercalate ((sortedKeys (attrsAt c w.clock first)).map c.ToColumnName) ++
        ") VALUES " ++
        ", ".intercalate (rows.map (fun a =>
          "(" ++ ", ".intercalate (rowPlaceholders c a.length) ++ ")"))) ∧
      List.Forall₂ (fun o a => ∃ t, a = attrsAt c t o) (first :: rest) rows ∧
      stmt.Vars = (rows.map (fun a =>
        (sortedKeys (attrsAt c w.clock first)).map (fun key => a.get key))).flatten ∧
      ∀ a ∈ rows, (rowPlaceholders c a.length).length =
        ((sortedKeys (attrsAt c w.clock first)).map c.ToColumnName).length := by
  have hpass : ∀ o ∈ first :: rest, passes c (entryCount c first) o :=
    fun o ho => passes_of_same_keys c first o (hs o ho) (hk o ho)
  have hrowlen := length_of_mem_rowAttrs c (entryCount c first) (first :: rest) hpass
    (extractMapValue c w.clock first).2
  refine ⟨builtStatement c w.clock first (first :: rest),
    rowAttrs c (extractMapValue c w.clock first).2 (first :: rest), ?_, rfl, ?_, ?_, ?_⟩
  · rw [insertObjSet_builds c w first rest hpass]
    rfl
  · exact rowAttrs_forall₂ c _ _
  · show ((rowAttrs c (extractMapValue c w.clock first).2 (first :: rest)).map
      rowValues).flatten = _
    congr 1
    apply List.map_congr_left
    intro a ha
    obtain ⟨o, ho, t, ht⟩ := mem_rowAttrs c _ _ a ha
    have hkeys : ∀ key, key ∈ Attrs.keys a ↔ key ∈ Attrs.keys (attrsAt c w.clock first) := by
      intro key
      rw [ht, keys_attrsAt c c t 0 o, keys_attrsAt c c w.clock 0 first]
      exact hk o ho key
    unfold rowValues
    rw [sortedKeys_congr a (attrsAt c w.clock first)
      (by rw [ht]; exact nodup_keys_attrsAt c t o) (nodup_keys_attrsAt c w.clock first) hkeys]
  · intro a ha
    rw [length_rowPlaceholders, List.length_map, length_sortedKeys, length_attrsAt]
    exact hrowlen a ha

theorem insertObjSet_same_keys_witness :
    (∀ o ∈ [sampleUser, sampleUser], o.kind = Kind.struct) ∧
    (∀ o ∈ [sampleUser, sampleUser], ∀ key,
      key ∈ Attrs.keys (attrsAt sampleCollaborators 0 o) ↔
        key ∈ Attrs.keys (attrsAt sampleCollaborators 0 sampleUser)) ∧
    (insertObjSet sampleCollaborators freshWorld [sampleUser, sampleUser]).2.sent =
      [{ SQL := "INSERT INTO users (created_at, name, role) VALUES (?, ?, ?), (?, ?, ?)",
         Vars := [Val.time 1001, Val.str "a", Val.str "guest",
                  Val.time 1002, Val.str "a", Val.str "guest"] }] ∧
    ∃ (stmt : Statement) (rows : List Attrs),
      (insertObjSet sampleCollaborators freshWorld [sampleUser, sampleUser]).2.sent =
        freshWorld.sent ++ [stmt] ∧
      stmt.SQL = sampleCollaborators.Raw ("INSERT INTO " ++
        sampleCollaborators.QuotedTableName sampleUser ++ " (" ++
        ", ".intercalate ((sortedKeys (attrsAt sampleCollaborators freshWorld.clock
          sampleUser)).map sampleCollaborators.ToColumnName) ++
        ") VALUES " ++
        ", ".intercalate (rows.map (fun a =>
          "(" ++ ", ".intercalate (rowPlaceholders sampleCollaborators a.length) ++ ")"))) ∧
      List.Forall₂ (fun o a => ∃ t, a = attrsAt sampleCollaborators t o)
        [sampleUser, sampleUser] rows ∧
      stmt.Vars = (rows.map (fun a =>
        (sortedKeys (attrsAt sampleCollaborators freshWorld.clock sampleUser)).map
          (fun key => a.get key))).flatten ∧
      ∀ a ∈ rows, (rowPlaceholders sampleCollaborators a.length).length =
        ((sortedKeys (attrsAt sampleCollaborators freshWorld.clock sampleUser)).map
          sampleCollaborators.ToColumnName).length :=
  ⟨by decide, by simp, by decide,
    insertObjSet_same_keys sampleCollaborators freshWorld sampleUser [sampleUser]
      (by decide) (by simp)⟩

/-! ## The column list -/

theorem nodup_sortedKeys (a : Attrs) (h : (Attrs.keys a).Nodup) : (sortedKeys a).Nodup :=
  (sortedKeys_perm a).nodup_iff.mpr h

theorem sortedKeys_sorted_le (a : Attrs) :
    (sortedKeys a).Sorted (fun x y : String => x ≤ y) :=
  List.Pairwise.imp (fun {x y} hxy => (keyLE_iff_le x y).mp hxy) (sortedKeys_sorted a)

/-- C12: the code at a record whose columns are named `B` and `a` (as set by column
tags), with a naming convention that puts names in lower case as gorm's default does.
The keys of the mapping, which are the database column names `field.DBName`, sort to
`B, a`; the statement has the column list `b, a`, the keys passed through
`gorm.ToColumnName` once more, which is not the key list and is not in ascending order. -/
theorem insertObjSet_columns_renamed :
    rowUpperB.fields.map (fun f => f.DBName) = ["B", "a"] ∧
    sortedKeys (attrsAt lowerCollaborators 0 rowUpperB) = ["B", "a"] ∧
    (insertObjSet lowerCollaborators freshWorld [rowUpperB]).2.sent =
      [{ SQL := "INSERT INTO t (b, a) VALUES (?, ?)", Vars := [Val.int 1, Val.int 2] }] ∧
    (sortedKeys (attrsAt lowerCollaborators 0 rowUpperB)).map lowerCollaborators.ToColumnName =
      ["b", "a"] ∧
    ¬ keyLE "b" "a" := by
  decide

/-! ## The size of the column set -/

/-- The keys of the mapping of a struct are, up to order, the distinct column names of
its included fields. -/
theorem keys_attrsAt_perm (c : Collaborators) (clock : Nat) (o : Obj)
    (h : o.kind = Kind.struct) :
    (Attrs.keys (attrsAt c clock o)).Perm
      ((o.fields.filter (fun f => decide f.included)).map (fun f => f.DBName)).dedup := by
  rw [List.perm_ext_iff_of_nodup (nodup_keys_attrsAt c clock o) (List.nodup_dedup _)]
  intro key
  rw [attrsAt_struct c clock o h, extractFields_mem_keys, List.mem_dedup, List.mem_map]
  simp only [Attrs.keys, List.map_nil, List.not_mem_nil, false_or, List.mem_filter,
    decide_eq_true_eq]
  constructor
  · rintro ⟨f, hf, hi, hd⟩
    exact ⟨f, ⟨hf, hi⟩, hd⟩
  · rintro ⟨f, ⟨hf, hi⟩, hd⟩
    exact ⟨f, hf, hi, hd⟩

/-- C13, counterexample: the record with two included fields of the same column name `x`
has no blank field and no default, and the group of two such records builds a statement
with one column although the record has two included fields. -/
theorem insertObjSet_shared_column_name :
    (sharedColumn.fields.filter (fun f => decide f.included)).length = 2 ∧
    (∀ f ∈ sharedColumn.fields, f.IsBlank = false ∧ f.HasDefaultValue = false) ∧
    attrsAt sampleCollaborators 0 sharedColumn = [("x", Val.int 2)] ∧
    (insertObjSet sampleCollaborators freshWorld [sharedColumn, sharedColumn]).2.sent =
      [{ SQL := "INSERT INTO t (x) VALUES (?), (?)", Vars := [Val.int 2, Val.int 2] }] := by
  decide

/-- C13, amended: for a non-empty group on which `insertObjSet` builds a statement, the
column list of the statement has one column for each key of the first record's mapping,
the keys being exactly the column names of the first record's fields that are not
relationships, not ignored and not the primary key, each once; so the number of entries
of that mapping, which is the number of columns of the statement, is the number of
distinct column names of those fields, and it is the number of those fields when their
column names are pairwise distinct. -/
theorem insertObjSet_column_count (c : Collaborators) (w : World) (first : Obj)
    (rest : List Obj)
    (h : ∀ o ∈ first :: rest, o.kind = Kind.struct ∧ entryCount c o = entryCount c first) :
    ∃ (stmt : Statement) (columns : List String) (rows : List Attrs),
      (insertObjSet c w (first :: rest)).2.sent = w.sent ++ [stmt] ∧
      stmt.SQL = c.Raw ("INSERT INTO " ++ c.QuotedTableName first ++ " (" ++
        ", ".intercalate columns ++ ") VALUES " ++
        ", ".intercalate (rows.map (fun a => valueQuery c a.length))) ∧
      List.Forall₂ (fun o a => ∃ t, a = attrsAt c t o) (first :: rest) rows ∧
      columns = (sortedKeys (attrsAt c w.clock first)).map c.ToColumnName ∧
      (sortedKeys (attrsAt c w.clock first)).Nodup ∧
      (∀ key, key ∈ sortedKeys (attrsAt c w.clock first) ↔
        ∃ f ∈ first.fields, (f.Relationship = none ∧ f.IsIgnored = false ∧
          f.IsPrimaryKey = false) ∧ f.DBName = key) ∧
      columns.length = (attrsAt c w.clock first).length ∧
      columns.length =
        ((first.fields.filter (fun f => decide (f.Relationship = none ∧
          f.IsIgnored = false ∧ f.IsPrimaryKey = false))).map (fun f => f.DBName)).dedup.length ∧
      (((first.fields.filter (fun f => decide (f.Relationship = none ∧
          f.IsIgnored = false ∧ f.IsPrimaryKey = false))).map (fun f => f.DBName)).Nodup →
        columns.length = (first.fields.filter (fun f => decide (f.Relationship = none ∧
          f.IsIgnored = false ∧ f.IsPrimaryKey = false))).length) := by
  have hk : first.kind = Kind.struct := (h first (List.mem_cons_self _ _)).1
  have hcount : (attrsAt c w.clock first).length =
      ((first.fields.filter (fun f => decide f.included)).map
        (fun f => f.DBName)).dedup.length := by
    have hlen := (keys_attrsAt_perm c w.clock first hk).length_eq
    simpa [Attrs.keys] using hlen
  have hcols : ((sortedKeys (attrsAt c w.clock first)).map c.ToColumnName).length =
      (attrsAt c w.clock first).length := by
    rw [List.length_map, length_sortedKeys]
  refine ⟨builtStatement c w.clock first (first :: rest),
    (sortedKeys (attrsAt c w.clock first)).map c.ToColumnName,
    rowAttrs c (extractMapValue c w.clock first).2 (first :: rest),
    ?_, ?_, rowAttrs_forall₂ c _ _, rfl, ?_, ?_, hcols, ?_, ?_⟩
  · rw [insertObjSet_builds c w first rest h]
    rfl
  · simp only [builtStatement]
  · exact nodup_sortedKeys _ (nodup_keys_attrsAt c w.clock first)
  · intro key
    rw [mem_sortedKeys, attrsAt_struct c w.clock first hk, extractFields_mem_keys]
    simp [Attrs.keys, Field.included]
  · rw [hcols, hcount]
    rfl
  · intro hnodup
    rw [hcols, hcount]
    have hd : ((first.fields.filter (fun f => decide f.included)).map
        (fun f => f.DBName)).dedup =
        (first.fields.filter (fun f => decide f.included)).map (fun f => f.DBName) :=
      List.Nodup.dedup hnodup
    rw [hd, List.length_map]
    rfl

theorem insertObjSet_column_count_witness :
    (∀ o ∈ [sampleUser, sampleUser],
      o.kind = Kind.struct ∧
        entryCount sampleCollaborators o = entryCount sampleCollaborators sampleUser) ∧
    (sampleUser.fields.filter (fun f => decide (f.Relationship = none ∧
      f.IsIgnored = false ∧ f.IsPrimaryKey = false))).length = 3 ∧
    (insertObjSet sampleCollaborators freshWorld [sampleUser, sampleUser]).2.sent =
      [{ SQL := "INSERT INTO users (created_at, name, role) VALUES (?, ?, ?), (?, ?, ?)",
         Vars := [Val.time 1001, Val.str "a", Val.str "guest",
                  Val.time 1002, Val.str "a", Val.str "guest"] }] ∧
    ∃ (stmt : Statement) (columns : List String) (rows : List Attrs),
      (insertObjSet sampleCollaborators freshWorld [sampleUser, sampleUser]).2.sent =
        freshWorld.sent ++ [stmt] ∧
      stmt.SQL = sampleCollaborators.Raw ("INSERT INTO " ++
        sampleCollaborators.QuotedTableName sampleUser ++ " (" ++
        ", ".intercalate columns ++ ") VALUES " ++
        ", ".intercalate (rows.map (fun a => valueQuery sampleCollaborators a.length))) ∧
      List.Forall₂ (fun o a => ∃ t, a = attrsAt sampleCollaborators t o)
        [sampleUser, sampleUser] rows ∧
      columns = (sortedKeys (attrsAt sampleCollaborators freshWorld.clock sampleUser)).map
        sampleCollaborators.ToColumnName ∧
      (sortedKeys (attrsAt sampleCollaborators freshWorld.clock sampleUser)).Nodup ∧
      (∀ key, key ∈ sortedKeys (attrsAt sampleCollaborators freshWorld.clock sampleUser) ↔
        ∃ f ∈ sampleUser.fields, (f.Relationship = none ∧ f.IsIgnored = false ∧
          f.IsPrimaryKey = false) ∧ f.DBName = key) ∧
      columns.length = (attrsAt sampleCollaborators freshWorld.clock sampleUser).length ∧
      columns.length =
        ((sampleUser.fields.filter (fun f => decide (f.Relationship = none ∧
          f.IsIgnored = false ∧ f.IsPrimaryKey = false))).map
            (fun f => f.DBName)).dedup.length ∧
      (((sampleUser.fields.filter (fun f => decide (f.Relationship = none ∧
          f.IsIgnored = false ∧ f.IsPrimaryKey = false))).map (fun f => f.DBName)).Nodup →
        columns.length = (sampleUser.fields.filter (fun f => decide (f.Relationship = none ∧
          f.IsIgnored = false ∧ f.IsPrimaryKey = false))).length) :=
  ⟨by decide, by decide, by decide,
    insertObjSet_column_count sampleCollaborators freshWorld sampleUser [sampleUser]
      (by decide)⟩

/-! ## A field flagged with a default that has no `DEFAULT` tag setting -/

theorem extractFields_append (c : Collaborators) (pre : List Field) :
    ∀ (post : List Field) (attrs : Attrs) (clock : Nat),
      extractFields c (pre ++ post) attrs clock =
        extractFields c post (extractFields c pre attrs clock).1
          (extractFields c pre attrs clock).2 := by
  induction pre with
  | nil => intro post attrs clock; rfl
  | cons field rest ih =>
    intro post attrs clock
    show extractFields c (rest ++ post) _ _ = _
    rw [ih]
    rfl

/-- C17, counterexample: the field `counterField` is included, is not named `CreatedAt`
or `UpdatedAt`, is flagged as having a default, is blank and has no `DEFAULT` tag
setting; in the record where a later field has the same column name, the entry of the
column holds that later field's value 5, not the field's own value 0. -/
theorem extractMapValue_flagged_field_overwritten :
    counterField ∈ counterShadowed.fields ∧
    (counterField.Relationship = none ∧ counterField.IsIgnored = false ∧
      counterField.IsPrimaryKey = false) ∧
    ¬ (counterField.Name = "CreatedAt" ∨ counterField.Name = "UpdatedAt") ∧
    counterField.HasDefaultValue = true ∧ counterField.IsBlank = true ∧
    counterField.TagSettingsGet "DEFAULT" = none ∧
    counterField.Value = Val.int 0 ∧
    (extractMapValue sampleCollaborators 0 counterShadowed).1 =
      (some [("counter", Val.int 5)], none) := by
  decide

/-- C17, amended: for a struct record and an included field not named `CreatedAt` or
`UpdatedAt` that is flagged as having a default, is blank and has no `DEFAULT` tag
setting, `extractMapValue` returns no error and a mapping with an entry for the field's
column; the entry holds the field's current value when no included field after it in the
record has the same column name. -/
theorem extractMapValue_flagged_without_tag (c : Collaborators) (clock : Nat) (value : Obj)
    (pre post : List Field) (f : Field) (h : value.kind = Kind.struct)
    (hfields : value.fields = pre ++ f :: post)
    (hi : f.Relationship = none ∧ f.IsIgnored = false ∧ f.IsPrimaryKey = false)
    (ht : ¬ (f.Name = "CreatedAt" ∨ f.Name = "UpdatedAt"))
    (_hd : f.HasDefaultValue = true) (_hb : f.IsBlank = true)
    (htag : f.TagSettingsGet "DEFAULT" = none) :
    ∃ attrs, (extractMapValue c clock value).1 = (some attrs, none) ∧
      f.DBName ∈ Attrs.keys attrs ∧
      ((∀ g ∈ post, (g.Relationship = none ∧ g.IsIgnored = false ∧
          g.IsPrimaryKey = false) → g.DBName ≠ f.DBName) →
        attrs.get f.DBName = f.Value) := by
  have hmem : f ∈ value.fields := by
    rw [hfields]
    simp
  refine ⟨(extractFields c value.fields [] clock).1, ?_, ?_, ?_⟩
  · rw [extractMapValue_struct c clock value h]
  · rw [extractFields_mem_keys]
    exact Or.inr ⟨f, hmem, hi, rfl⟩
  · intro hpost
    have hcur : ∀ a t, extractField c a t f = (a.set f.DBName f.Value, t) := by
      intro a t
      apply extractField_current c a t f hi ht
      rintro ⟨_, _, h3⟩
      rw [htag] at h3
      simp at h3
    rw [hfields, extractFields_append]
    show (extractFields c post _ _).1.get f.DBName = f.Value
    apply extractFields_get_const c f.DBName f.Value post
    · intro g hg hgi hgk
      exact absurd hgk (hpost g hg hgi)
    · right
      rw [hcur]
      exact Attrs.get_set_self _ _ _

theorem extractMapValue_flagged_without_tag_witness :
    (extractMapValue sampleCollaborators 0 counterRecord).1 =
      (some [("name", Val.str "a"), ("counter", Val.int 0)], none) ∧
    ∃ attrs, (extractMapValue sampleCollaborators 0 counterRecord).1 = (some attrs, none) ∧
      counterField.DBName ∈ Attrs.keys attrs ∧
      ((∀ g ∈ ([] : List Field), (g.Relationship = none ∧ g.IsIgnored = false ∧
          g.IsPrimaryKey = false) → g.DBName ≠ counterField.DBName) →
        attrs.get counterField.DBName = counterField.Value) :=
  ⟨by decide,
    extractMapValue_flagged_without_tag sampleCollaborators 0 counterRecord
      [plainField "Name" "name" (Val.str "a")] [] counterField
      (by decide) (by decide) (by decide) (by decide) (by decide) (by decide) (by decide)⟩

/-! ## The order of the values of a row -/

/-- C1, counterexample: the group of a record with columns `a, b` and a record with
columns `b, c` builds a statement with the column list `a, b`, and the second row binds
the record's values of `b` and `c` at the positions of `a` and `b`: the value at the
position of column `b` is not the value the record holds under `b`. -/
theorem insertObjSet_row_order_mismatch :
    (insertObjSet sampleCollaborators freshWorld [rowAB, rowBC]).2.sent =
      [{ SQL := "INSERT INTO ab (a, b) VALUES (?, ?), (?, ?)",
         Vars := [Val.int 1, Val.int 2, Val.int 3, Val.int 4] }] ∧
    (sortedKeys (attrsAt sampleCollaborators 0 rowAB)).map sampleCollaborators.ToColumnName =
      ["a", "b"] ∧
    attrsAt sampleCollaborators 0 rowBC = [("b", Val.int 3), ("c", Val.int 4)] ∧
    (attrsAt sampleCollaborators 0 rowBC).get "b" ≠ Val.int 4 := by
  decide

/-- C1, amended: for a non-empty group on which `insertObjSet` builds a statement, the
bound values are the concatenation of one row per record, in record order, each row as
long as the column list; and for every record whose mapping has the same keys as the
first record's, the `j`-th value of its row is the value its mapping holds under the key
the `j`-th column is derived from (the `j`-th sorted key of the first record's mapping).
Nothing is said of the rows of the other records. -/
theorem insertObjSet_row_values (c : Collaborators) (w : World) (first : Obj)
    (rest : List Obj)
    (h : ∀ o ∈ first :: rest, o.kind = Kind.struct ∧ entryCount c o = entryCount c first) :
    ∃ (stmt : Statement) (values : List (List Val)),
      (insertObjSet c w (first :: rest)).2.sent = w.sent ++ [stmt] ∧
      stmt.SQL = c.Raw ("INSERT INTO " ++ c.QuotedTableName first ++ " (" ++
        ", ".intercalate ((sortedKeys (attrsAt c w.clock first)).map c.ToColumnName) ++
        ") VALUES " ++ ", ".intercalate (values.map (fun v => valueQuery c v.length))) ∧
      stmt.Vars = values.flatten ∧
      (∀ v ∈ values,
        v.length = ((sortedKeys (attrsAt c w.clock first)).map c.ToColumnName).length) ∧
      List.Forall₂
        (fun o v =>
          (∀ key, key ∈ Attrs.keys (attrsAt c 0 o) ↔ key ∈ Attrs.keys (attrsAt c 0 first)) →
          ∃ t, v = (sortedKeys (attrsAt c w.clock first)).map
            (fun key => (attrsAt c t o).get key))
        (first :: rest) values := by
  have hrowlen := length_of_mem_rowAttrs c (entryCount c first) (first :: rest) h
    (extractMapValue c w.clock first).2
  refine ⟨builtStatement c w.clock first (first :: rest),
    (rowAttrs c (extractMapValue c w.clock first).2 (first :: rest)).map rowValues,
    ?_, ?_, rfl, ?_, ?_⟩
  · rw [insertObjSet_builds c w first rest h]
    rfl
  · have htuples : (rowAttrs c (extractMapValue c w.clock first).2 (first :: rest)).map
        (fun a => valueQuery c a.length) =
        ((rowAttrs c (extractMapValue c w.clock first).2 (first :: rest)).map rowValues).map
          (fun v => valueQuery c v.length) := by
      rw [List.map_map]
      apply List.map_congr_left
      intro a _
      simp only [Function.comp, length_rowValues]
    simp only [builtStatement, htuples]
  · intro v hv
    obtain ⟨a, ha, hav⟩ := List.mem_map.mp hv
    rw [← hav, length_rowValues, List.length_map, length_sortedKeys, length_attrsAt]
    exact hrowlen a ha
  · rw [List.forall₂_map_right_iff]
    refine List.Forall₂.imp ?_ (rowAttrs_forall₂ c _ _)
    rintro o a ⟨t, ht⟩ hkeys
    refine ⟨t, ?_⟩
    have hk : ∀ key, key ∈ Attrs.keys a ↔ key ∈ Attrs.keys (attrsAt c w.clock first) := by
      intro key
      rw [ht, keys_attrsAt c c t 0 o, keys_attrsAt c c w.clock 0 first]
      exact hkeys key
    unfold rowValues
    rw [sortedKeys_congr a (attrsAt c w.clock first)
      (by rw [ht]; exact nodup_keys_attrsAt c t o) (nodup_keys_attrsAt c w.clock first) hk, ht]

theorem insertObjSet_row_values_witness :
    (∀ o ∈ [rowAB, rowAB],
      o.kind = Kind.struct ∧
        entryCount sampleCollaborators o = entryCount sampleCollaborators rowAB) ∧
    (insertObjSet sampleCollaborators freshWorld [rowAB, rowAB]).2.sent =
      [{ SQL := "INSERT INTO ab (a, b) VALUES (?, ?), (?, ?)",
         Vars := [Val.int 1, Val.int 2, Val.int 1, Val.int 2] }] ∧
    ∃ (stmt : Statement) (values : List (List Val)),
      (insertObjSet sampleCollaborators freshWorld [rowAB, rowAB]).2.sent =
        freshWorld.sent ++ [stmt] ∧
      stmt.SQL = sampleCollaborators.Raw ("INSERT INTO " ++
        sampleCollaborators.QuotedTableName rowAB ++ " (" ++
        ", ".intercalate ((sortedKeys (attrsAt sampleCollaborators freshWorld.clock rowAB)).map
          sampleCollaborators.ToColumnName) ++
        ") VALUES " ++
        ", ".intercalate (values.map (fun v => valueQuery sampleCollaborators v.length))) ∧
      stmt.Vars = values.flatten ∧
      (∀ v ∈ values,
        v.length = ((sortedKeys (attrsAt sampleCollaborators freshWorld.clock rowAB)).map
          sampleCollaborators.ToColumnName).length) ∧
      List.Forall₂
        (fun o v =>
          (∀ key, key ∈ Attrs.keys (attrsAt sampleCollaborators 0 o) ↔
            key ∈ Attrs.keys (attrsAt sampleCollaborators 0 rowAB)) →
          ∃ t, v = (sortedKeys (attrsAt sampleCollaborators freshWorld.clock rowAB)).map
            (fun key => (attrsAt sampleCollaborators t o).get key))
        [rowAB, rowAB] values :=
  ⟨by decide, by decide,
    insertObjSet_row_values sampleCollaborators freshWorld rowAB [rowAB] (by decide)⟩

end GormBulkInsert
